import Mathlib

/-!
# wlc session layer: `src/session/udev.c`

A shallow embedding of the udev monitor / libinput pipeline of wlc and the
properties of its specification that were checked against it.

Conventions of the embedding.

* A C pointer is an `Option Ptr`, `none` being `NULL`; a fresh object gets the
  address `brk` of the world and `brk` grows.
* The file-scope statics `input` and `udev` together with the state of the
  libraries the code talks to (libudev, libinput, the wayland event loop, the
  wlc signals and the wlc log) form one `World`.
* A function of the source becomes a function `World → Option (result × World)`;
  `none` is a run that leaves defined behaviour (a failed `assert`, a library
  call on `NULL` or on a released object, `wl_list_remove` of an unlinked
  listener).
* Outcomes the program does not decide (does `udev_new` succeed, which events
  did the devices produce, which record did the monitor receive) are arguments.
* Values of C type `double` are only ever copied by this file, so they are kept
  in an arbitrary carrier type `D`.
-/

namespace Wlc

/-- Addresses handed out by the libraries. -/
abbrev Ptr := Nat

/-- A C string: its characters before the terminating NUL. -/
abbrev CStr := List Char

/-! ## libinput events -/

/-- The discriminants of `enum libinput_event_type` that `input_event` names in
its `switch`, and `OTHER` for every discriminant it does not name (touch
events, `LIBINPUT_EVENT_NONE`, ...). -/
inductive libinput_event_type where
  | LIBINPUT_EVENT_DEVICE_ADDED
  | LIBINPUT_EVENT_DEVICE_REMOVED
  | LIBINPUT_EVENT_POINTER_MOTION
  | LIBINPUT_EVENT_POINTER_MOTION_ABSOLUTE
  | LIBINPUT_EVENT_POINTER_BUTTON
  | LIBINPUT_EVENT_POINTER_AXIS
  | LIBINPUT_EVENT_KEYBOARD_KEY
  | OTHER (raw : Nat)
  deriving DecidableEq, Repr

/-- What the getters of libinput return for a `struct libinput_event_pointer`.
The two transformed absolute coordinates depend on the width / height passed to
the getter. Enumerations (`button_state`, `axis`) are kept as their integer
values. -/
structure libinput_event_pointer (D : Type) where
  time : Nat
  dx : D
  dy : D
  absolute_x_transformed : Nat → D
  absolute_y_transformed : Nat → D
  button : Nat
  button_state : Nat
  axis : Nat
  axis_value : D

/-- What the getters of libinput return for a `struct libinput_event_keyboard`. -/
structure libinput_event_keyboard where
  time : Nat
  key : Nat
  key_state : Nat
  deriving DecidableEq, Repr

/-- A `struct libinput_event`: its type and its pointer / keyboard views. -/
structure libinput_event (D : Type) where
  type : libinput_event_type
  pointer : libinput_event_pointer D
  keyboard : libinput_event_keyboard

section Getters
variable {D : Type}

@[simp] def libinput_event_get_type (event : libinput_event D) : libinput_event_type := event.type
@[simp] def libinput_event_get_pointer_event (event : libinput_event D) :
    libinput_event_pointer D := event.pointer
@[simp] def libinput_event_get_keyboard_event (event : libinput_event D) :
    libinput_event_keyboard := event.keyboard
@[simp] def libinput_event_pointer_get_time (pev : libinput_event_pointer D) : Nat := pev.time
@[simp] def libinput_event_pointer_get_dx (pev : libinput_event_pointer D) : D := pev.dx
@[simp] def libinput_event_pointer_get_dy (pev : libinput_event_pointer D) : D := pev.dy
@[simp] def libinput_event_pointer_get_absolute_x_transformed
    (pev : libinput_event_pointer D) (width : Nat) : D := pev.absolute_x_transformed width
@[simp] def libinput_event_pointer_get_absolute_y_transformed
    (pev : libinput_event_pointer D) (height : Nat) : D := pev.absolute_y_transformed height
@[simp] def libinput_event_pointer_get_button (pev : libinput_event_pointer D) : Nat := pev.button
@[simp] def libinput_event_pointer_get_button_state (pev : libinput_event_pointer D) : Nat :=
  pev.button_state
@[simp] def libinput_event_pointer_get_axis (pev : libinput_event_pointer D) : Nat := pev.axis
@[simp] def libinput_event_pointer_get_axis_value (pev : libinput_event_pointer D) : D :=
  pev.axis_value
@[simp] def libinput_event_keyboard_get_time (kev : libinput_event_keyboard) : Nat := kev.time
@[simp] def libinput_event_keyboard_get_key (kev : libinput_event_keyboard) : Nat := kev.key
@[simp] def libinput_event_keyboard_get_key_state (kev : libinput_event_keyboard) : Nat :=
  kev.key_state

end Getters

/-! ## The normalized event -/

/-- Tags of `struct wlc_input_event`. -/
inductive wlc_input_event_type where
  | WLC_INPUT_EVENT_MOTION
  | WLC_INPUT_EVENT_MOTION_ABSOLUTE
  | WLC_INPUT_EVENT_BUTTON
  | WLC_INPUT_EVENT_SCROLL
  | WLC_INPUT_EVENT_KEY
  deriving DecidableEq, Repr

/-- The member of the union of `struct wlc_input_event` that was written. -/
inductive wlc_input_payload (D : Type) where
  | motion (dx dy : D)
  | motion_abs (x y : libinput_event_pointer D → Nat → D) (internal : libinput_event_pointer D)
  | button (code state : Nat)
  | scroll (amount : D) (axis : Nat)
  | key (code state : Nat)

/-- Modelled from the spec: `struct wlc_input_event` is declared in a header
that is not among the sources. The spec (section 3) gives it one timestamp and
one populated payload out of `Motion{dx, dy}`, `MotionAbsolute{x_accessor,
y_accessor, device_context}`, `Button{code, state}`, `Scroll{axis, amount}`,
`Key{code, state}`; the field names are the ones `input_event` assigns. The tag
is kept apart from the payload, as in the C struct. -/
structure wlc_input_event (D : Type) where
  type : wlc_input_event_type
  time : Nat
  payload : wlc_input_payload D

/-! ## The world -/

/-- Severities of `wlc_log`. -/
inductive wlc_log_type where
  | WLC_LOG_INFO
  | WLC_LOG_WARN
  deriving DecidableEq, Repr

/-- The static `struct input`. -/
structure input_t where
  handle : Option Ptr
  event_source : Option Ptr
  deriving DecidableEq, Repr

/-- The static `struct udev`. -/
structure udev_t where
  handle : Option Ptr
  monitor : Option Ptr
  event_source : Option Ptr
  deriving DecidableEq, Repr

/-- State of a `struct udev_monitor`: the subsystems of its filter and whether
receiving was enabled. -/
structure udev_monitor_t where
  udev : Ptr
  filters : List String
  receiving : Bool
  deriving DecidableEq, Repr

/-- State of a `struct libinput` context as far as this file observes it. A
suspended context has its devices closed: `libinput_dispatch` reads nothing
from them. -/
structure libinput_t (D : Type) where
  udev : Ptr
  seat : Option String
  suspended : Bool
  queue : List (libinput_event D)
  dispatched : Nat
  log_handler : Bool
  log_priority_error : Bool

/-- The descriptor an event source watches. -/
inductive Fd where
  | libinput (handle : Ptr)
  | monitor (monitor : Ptr)
  deriving DecidableEq, Repr

/-- The callback of an event source. -/
inductive Callback where
  | input_event
  | udev_event
  deriving DecidableEq, Repr

/-- A `struct wl_event_source` registered by `wl_event_loop_add_fd`. -/
structure wl_event_source_t where
  loop : Ptr
  fd : Fd
  callback : Callback
  deriving DecidableEq, Repr

/-- Everything the functions of `udev.c` read or write. -/
structure World (D : Type) where
  /-- the static `input` -/
  input : input_t
  /-- the static `udev` -/
  udev : udev_t
  /-- next unused address -/
  brk : Ptr
  /-- udev contexts the pipeline holds a reference to -/
  udev_live : List Ptr
  /-- udev monitors the pipeline holds a reference to -/
  monitors : List (Ptr × udev_monitor_t)
  /-- libinput contexts the pipeline holds a reference to -/
  libinputs : List (Ptr × libinput_t D)
  /-- event sources registered with the event loop -/
  sources : List (Ptr × wl_event_source_t)
  /-- whether `activated_listener` is linked into the `activated` signal -/
  activated_linked : Bool
  /-- events emitted on `wlc_system_signals()->input`, oldest first -/
  signal_input : List (wlc_input_event D)
  /-- libinput events passed to `libinput_event_destroy`, oldest first -/
  destroyed : List (libinput_event D)
  /-- lines written by `wlc_log`, oldest first -/
  log : List (wlc_log_type × String)

/-- The state of a process that has not called any function of the file: the
statics are zero and nothing is held. -/
def World.fresh (D : Type) : World D :=
  { input := ⟨none, none⟩, udev := ⟨none, none, none⟩, brk := 1, udev_live := [],
    monitors := [], libinputs := [], sources := [], activated_linked := false,
    signal_input := [], destroyed := [], log := [] }

section Code
variable {D : Type}

/-- Replace the value stored under key `k`. -/
def assocSet {β : Type} (k : Ptr) (v : β) : List (Ptr × β) → List (Ptr × β)
  | [] => []
  | (k', v') :: rest => if k' = k then (k, v) :: rest else (k', v') :: assocSet k v rest

/-- Drop the entries stored under key `k`. -/
def assocErase {β : Type} (k : Ptr) (l : List (Ptr × β)) : List (Ptr × β) :=
  l.filter (fun p => p.1 != k)

/-- The logger `wlc_log`. -/
def wlc_log (type : wlc_log_type) (msg : String) (w : World D) : World D :=
  { w with log := w.log ++ [(type, msg)] }

/-- The call `wl_signal_emit(&wlc_system_signals()->input, &ev)`: the event is
handed to the subscribers, in order, before the call returns. -/
def wl_signal_emit_input (ev : wlc_input_event D) (w : World D) : World D :=
  { w with signal_input := w.signal_input ++ [ev] }

/-- The queue of a context after a dispatch step during which its devices
produced `produced`: a suspended context has closed its devices and queues
nothing. -/
def libinput_t.refill (c : libinput_t D) (produced : List (libinput_event D)) :
    List (libinput_event D) :=
  if c.suspended then c.queue else c.queue ++ produced

/-- Library call `libinput_dispatch`: reads the devices and queues what they
produced (`produced`), unless the context is suspended; returns `rc`. -/
def libinput_dispatch (handle : Option Ptr) (rc : Int) (produced : List (libinput_event D))
    (w : World D) : Option (Int × World D) :=
  match handle with
  | none => none
  | some h =>
    match w.libinputs.lookup h with
    | none => none
    | some c =>
      let c' := { c with dispatched := c.dispatched + 1, queue := c.refill produced }
      some (rc, { w with libinputs := assocSet h c' w.libinputs })

/-- Library call `libinput_get_event`: pops the oldest queued event, `NULL`
when the queue is empty. -/
def libinput_get_event (handle : Option Ptr) (w : World D) :
    Option (Option (libinput_event D) × World D) :=
  match handle with
  | none => none
  | some h =>
    match w.libinputs.lookup h with
    | none => none
    | some c =>
      match c.queue with
      | [] => some (none, w)
      | e :: rest => some (some e, { w with libinputs := assocSet h { c with queue := rest } w.libinputs })

/-- Library call `libinput_event_destroy`. -/
def libinput_event_destroy (event : libinput_event D) (w : World D) : World D :=
  { w with destroyed := w.destroyed ++ [event] }

/-- The static `pointer_abs_x`. -/
def pointer_abs_x (internal : libinput_event_pointer D) (width : Nat) : D :=
  let pev := internal
  libinput_event_pointer_get_absolute_x_transformed pev width

/-- The static `pointer_abs_y`. -/
def pointer_abs_y (internal : libinput_event_pointer D) (height : Nat) : D :=
  let pev := internal
  libinput_event_pointer_get_absolute_y_transformed pev height

/-- The `switch` of `input_event`, run on one event. -/
def input_event_switch (event : libinput_event D) (w : World D) : World D :=
  match libinput_event_get_type event with
  | .LIBINPUT_EVENT_DEVICE_ADDED => wlc_log .WLC_LOG_INFO "INPUT DEVICE ADDED" w
  | .LIBINPUT_EVENT_DEVICE_REMOVED => wlc_log .WLC_LOG_INFO "INPUT DEVICE REMOVED" w
  | .LIBINPUT_EVENT_POINTER_MOTION =>
    let pev := libinput_event_get_pointer_event event
    let ev : wlc_input_event D :=
      { type := .WLC_INPUT_EVENT_MOTION
        time := libinput_event_pointer_get_time pev
        payload := .motion (libinput_event_pointer_get_dx pev) (libinput_event_pointer_get_dy pev) }
    wl_signal_emit_input ev w
  | .LIBINPUT_EVENT_POINTER_MOTION_ABSOLUTE =>
    let pev := libinput_event_get_pointer_event event
    let ev : wlc_input_event D :=
      { type := .WLC_INPUT_EVENT_MOTION_ABSOLUTE
        time := libinput_event_pointer_get_time pev
        payload := .motion_abs pointer_abs_x pointer_abs_y pev }
    wl_signal_emit_input ev w
  | .LIBINPUT_EVENT_POINTER_BUTTON =>
    let pev := libinput_event_get_pointer_event event
    let ev : wlc_input_event D :=
      { type := .WLC_INPUT_EVENT_BUTTON
        time := libinput_event_pointer_get_time pev
        payload := .button (libinput_event_pointer_get_button pev)
                           (libinput_event_pointer_get_button_state pev) }
    wl_signal_emit_input ev w
  | .LIBINPUT_EVENT_POINTER_AXIS =>
    let pev := libinput_event_get_pointer_event event
    let ev : wlc_input_event D :=
      { type := .WLC_INPUT_EVENT_SCROLL
        time := libinput_event_pointer_get_time pev
        payload := .scroll (libinput_event_pointer_get_axis_value pev)
                           (libinput_event_pointer_get_axis pev) }
    wl_signal_emit_input ev w
  | .LIBINPUT_EVENT_KEYBOARD_KEY =>
    let kev := libinput_event_get_keyboard_event event
    let ev : wlc_input_event D :=
      { type := .WLC_INPUT_EVENT_KEY
        time := libinput_event_keyboard_get_time kev
        payload := .key (libinput_event_keyboard_get_key kev)
                        (libinput_event_keyboard_get_key_state kev) }
    wl_signal_emit_input ev w
  | .OTHER _ => w

/-- The `while ((event = libinput_get_event(input->handle)))` loop of
`input_event`. Each turn pops one event, so `fuel` bounds the turns; `none`
also when the fuel is used up before the queue is empty. -/
def input_event_loop (handle : Option Ptr) : Nat → World D → Option (World D)
  | 0, _ => none
  | fuel + 1, w =>
    match libinput_get_event handle w with
    | none => none
    | some (none, w1) => some w1
    | some (some event, w1) =>
      let w2 := input_event_switch event w1
      let w3 := libinput_event_destroy event w2
      input_event_loop handle fuel w3

/-- Number of events queued on the context behind `handle`. -/
def queued (handle : Option Ptr) (w : World D) : Nat :=
  match handle with
  | none => 0
  | some h => match w.libinputs.lookup h with
    | none => 0
    | some c => c.queue.length

/-- The static `input_event(fd, mask, data)` with `data = &input`. The outcome
of the dispatch step, its return code `rc` and the events `produced` by the
devices, is given. The loop gets one turn for each queued event and one for
the final `NULL`. -/
def input_event (rc : Int) (produced : List (libinput_event D)) (w : World D) :
    Option (Int × World D) :=
  match libinput_dispatch w.input.handle rc produced w with
  | none => none
  | some (r, w1) =>
    let w2 := if r ≠ 0 then wlc_log .WLC_LOG_WARN "Failed to dispatch libinput" w1 else w1
    match input_event_loop w2.input.handle (queued w2.input.handle w2 + 1) w2 with
    | none => none
    | some w3 => some (0, w3)


/-! ### C strings -/

/-- Library call `strcmp`: zero exactly for equal strings; the sign is the one
of the first differing byte, the end of a string counting as byte 0. -/
def strcmp : CStr → CStr → Int
  | [], [] => 0
  | [], d :: _ => 0 - (d.toNat : Int)
  | c :: _, [] => (c.toNat : Int)
  | c :: cs, d :: ds => if c = d then strcmp cs ds else (c.toNat : Int) - (d.toNat : Int)

/-- Library call `strncmp`: as `strcmp`, looking at no more than `n` bytes. -/
def strncmp : CStr → CStr → Nat → Int
  | _, _, 0 => 0
  | [], [], _ + 1 => 0
  | [], d :: _, _ + 1 => 0 - (d.toNat : Int)
  | c :: _, [], _ + 1 => (c.toNat : Int)
  | c :: cs, d :: ds, n + 1 =>
    if c = d then strncmp cs ds n else (c.toNat : Int) - (d.toNat : Int)

/-- Library call `isspace` in the C locale. -/
def isspace (c : Char) : Bool :=
  c = ' ' || c = '\t' || c = '\n' || c = '\x0b' || c = '\x0c' || c = '\r'

/-- Library call `isdigit`. -/
def isdigit (c : Char) : Bool := decide ('0' ≤ c) && decide (c ≤ '9')

/-- The value `LONG_MAX` of a 64-bit `long`. -/
def LONG_MAX : Int := 2 ^ 63 - 1

/-- The value `LONG_MIN` of a 64-bit `long`. -/
def LONG_MIN : Int := -(2 ^ 63)

/-- Library call `strtol(nptr, NULL, 10)` with a 64-bit `long`: white space is
skipped, a sign is read, then the longest run of decimal digits; the value is
clamped to the range of `long`, and it is 0 when there is no digit. -/
def strtol (nptr : CStr) : Int :=
  let s := nptr.dropWhile isspace
  let signed : Bool × CStr :=
    match s with
    | '-' :: r => (true, r)
    | '+' :: r => (false, r)
    | _ => (false, s)
  let digits := signed.2.takeWhile isdigit
  let n : Nat := digits.foldl (fun acc c => acc * 10 + (c.toNat - '0'.toNat)) 0
  if signed.1 then max LONG_MIN (-(n : Int)) else min LONG_MAX (n : Int)

/-! ### The udev monitor -/

/-- What the getters of libudev return for a received `struct udev_device`. -/
structure udev_device where
  sysname : CStr
  sysnum : Option CStr
  subsystem : Option CStr
  action : Option CStr
  properties : List (CStr × CStr)
  deriving DecidableEq, Repr

@[simp] def udev_device_get_sysname (device : udev_device) : CStr := device.sysname
@[simp] def udev_device_get_sysnum (device : udev_device) : Option CStr := device.sysnum
@[simp] def udev_device_get_action (device : udev_device) : Option CStr := device.action
@[simp] def udev_device_get_property_value (device : udev_device) (key : CStr) : Option CStr :=
  device.properties.lookup key

/-- Library call `udev_device_unref`; device records are not tracked in the world. -/
def udev_device_unref (_device : udev_device) (w : World D) : World D := w

/-- The static `is_hotplug`. The comparison `strtol(..) != drm_id` is made in
`long`, to which the `uint32_t` is converted. -/
def is_hotplug (drm_id : Nat) (device : udev_device) : Bool :=
  match udev_device_get_sysnum device with
  | none => false
  | some sysnum =>
    if strtol sysnum ≠ (drm_id : Int) then false
    else
      match udev_device_get_property_value device ['H', 'O', 'T', 'P', 'L', 'U', 'G'] with
      | none => false
      | some val => decide (strcmp val ['1'] = 0)

/-- Library call `udev_monitor_receive_device`: `received` is the record read
from the socket, if any. -/
def udev_monitor_receive_device (monitor : Option Ptr) (received : Option udev_device)
    (w : World D) : Option (Option udev_device) :=
  match monitor with
  | none => some none
  | some m =>
    match w.monitors.lookup m with
    | none => none
    | some _ => some received

/-- The part of `udev_event` after the hotplug test, up to the label `out`. -/
def udev_event_action (device : udev_device) (w : World D) : World D :=
  match udev_device_get_action device with
  | none => w
  | some action =>
    -- `if (!strncmp("event", sysname, sizeof("event")) != 0) goto out;`
    let negated : Int :=
      if strncmp ['e', 'v', 'e', 'n', 't'] (udev_device_get_sysname device) 6 = 0 then 1 else 0
    if negated ≠ 0 then w
    else if strcmp action ['a', 'd', 'd'] = 0 then
      wlc_log .WLC_LOG_INFO "udev: device added" w
    else if strcmp action ['r', 'e', 'm', 'o', 'v', 'e'] = 0 then
      wlc_log .WLC_LOG_INFO "udev: device removed" w
    else w

/-- The static `udev_event(fd, mask, data)` with `data = &udev`; `received` is
what the monitor socket delivers. -/
def udev_event (received : Option udev_device) (w : World D) : Option (Int × World D) :=
  match udev_monitor_receive_device w.udev.monitor received w with
  | none => none
  | some none => some (0, w)
  | some (some device) =>
    let w1 := wlc_log .WLC_LOG_INFO
      ("udev: got device " ++ String.mk (udev_device_get_sysname device)) w
    -- FIXME: pass correct drm id
    if is_hotplug 0 device then
      let w2 := wlc_log .WLC_LOG_INFO "udev: hotplug" w1
      -- FIXME: update drm outputs here
      some (0, udev_device_unref device w2)
    else
      some (0, udev_device_unref device (udev_event_action device w1))


/-! ### Library calls of the lifecycle -/

/-- What the calls that may fail return during one `init`, and what the
process environment holds. -/
structure Env where
  /-- `udev_new()` returns a context -/
  udev_new_ok : Bool
  /-- `udev_monitor_new_from_netlink` returns a monitor -/
  udev_monitor_new_ok : Bool
  /-- `udev_monitor_enable_receiving` returns 0, not a negative value -/
  udev_monitor_enable_receiving_ok : Bool
  /-- `wl_event_loop_add_fd` returns a source -/
  wl_event_loop_add_fd_ok : Bool
  /-- `libinput_udev_create_context` returns a context -/
  libinput_udev_create_context_ok : Bool
  /-- `libinput_udev_assign_seat` returns 0 -/
  libinput_udev_assign_seat_ok : Bool
  /-- the value of `wlc_event_loop()` -/
  event_loop : Option Ptr
  /-- the value of `getenv("XDG_SEAT")` -/
  xdg_seat : Option String
  deriving DecidableEq, Repr

/-- Library call `udev_new`. -/
def udev_new (ok : Bool) (w : World D) : Option Ptr × World D :=
  if ok then (some w.brk, { w with brk := w.brk + 1, udev_live := w.brk :: w.udev_live })
  else (none, w)

/-- Library call `udev_unref` on a non-`NULL` context: drops the reference the
pipeline holds; undefined when it holds none. -/
def udev_unref (handle : Ptr) (w : World D) : Option (World D) :=
  if handle ∈ w.udev_live then some { w with udev_live := w.udev_live.erase handle } else none

/-- Library call `udev_monitor_new_from_netlink(udev, "udev")`. -/
def udev_monitor_new_from_netlink (handle : Ptr) (ok : Bool) (w : World D) :
    Option (Option Ptr × World D) :=
  if handle ∈ w.udev_live then
    if ok then
      some (some w.brk, { w with brk := w.brk + 1,
                                 monitors := (w.brk, ⟨handle, [], false⟩) :: w.monitors })
    else some (none, w)
  else none

/-- Library call `udev_monitor_filter_add_match_subsystem_devtype(monitor, subsystem, NULL)`. -/
def udev_monitor_filter_add_match_subsystem_devtype (monitor : Ptr) (subsystem : String)
    (w : World D) : Option (World D) :=
  match w.monitors.lookup monitor with
  | none => none
  | some m =>
    some { w with monitors := assocSet monitor { m with filters := m.filters ++ [subsystem] } w.monitors }

/-- Library call `udev_monitor_enable_receiving`: 0 on success, negative otherwise. -/
def udev_monitor_enable_receiving (monitor : Ptr) (ok : Bool) (w : World D) :
    Option (Int × World D) :=
  match w.monitors.lookup monitor with
  | none => none
  | some m =>
    if ok then some (0, { w with monitors := assocSet monitor { m with receiving := true } w.monitors })
    else some (-1, w)

/-- Library call `wl_event_loop_add_fd(loop, fd, WL_EVENT_READABLE, callback, data)`. -/
def wl_event_loop_add_fd (loop : Ptr) (fd : Fd) (callback : Callback) (ok : Bool)
    (w : World D) : Option Ptr × World D :=
  if ok then
    (some w.brk, { w with brk := w.brk + 1, sources := (w.brk, ⟨loop, fd, callback⟩) :: w.sources })
  else (none, w)

/-- Library call `wl_event_source_remove`: undefined on a source that is not registered. -/
def wl_event_source_remove (source : Ptr) (w : World D) : Option (World D) :=
  match w.sources.lookup source with
  | none => none
  | some _ => some { w with sources := assocErase source w.sources }

/-- Library call `wl_event_source_check`: marks the source for a later check,
which changes nothing the model tracks. -/
def wl_event_source_check (_source : Ptr) (w : World D) : World D := w

/-- Library call `libinput_udev_create_context(&libinput_implementation, &input, udev)`:
a new context is not suspended and its queue is empty. -/
def libinput_udev_create_context (udev : Ptr) (ok : Bool) (w : World D) :
    Option (Option Ptr × World D) :=
  if udev ∈ w.udev_live then
    if ok then
      some (some w.brk,
        { w with brk := w.brk + 1,
                 libinputs := (w.brk, ⟨udev, none, false, [], 0, false, false⟩) :: w.libinputs })
    else some (none, w)
  else none

/-- Library call `libinput_udev_assign_seat`: 0 on success. -/
def libinput_udev_assign_seat (handle : Ptr) (seat : String) (ok : Bool) (w : World D) :
    Option (Int × World D) :=
  match w.libinputs.lookup handle with
  | none => none
  | some c =>
    if ok then some (0, { w with libinputs := assocSet handle { c with seat := some seat } w.libinputs })
    else some (-1, w)

/-- Library call `libinput_log_set_handler(handle, &cb_input_log_handler)`. -/
def libinput_log_set_handler (handle : Ptr) (w : World D) : Option (World D) :=
  match w.libinputs.lookup handle with
  | none => none
  | some c => some { w with libinputs := assocSet handle { c with log_handler := true } w.libinputs }

/-- Library call `libinput_log_set_priority(handle, LIBINPUT_LOG_PRIORITY_ERROR)`. -/
def libinput_log_set_priority (handle : Ptr) (w : World D) : Option (World D) :=
  match w.libinputs.lookup handle with
  | none => none
  | some c =>
    some { w with libinputs := assocSet handle { c with log_priority_error := true } w.libinputs }

/-- Library call `libinput_unref` on the only reference: the context is gone. -/
def libinput_unref (handle : Ptr) (w : World D) : Option (World D) :=
  match w.libinputs.lookup handle with
  | none => none
  | some _ => some { w with libinputs := assocErase handle w.libinputs }

/-- Library call `libinput_suspend`. -/
def libinput_suspend (handle : Ptr) (w : World D) : Option (World D) :=
  match w.libinputs.lookup handle with
  | none => none
  | some c => some { w with libinputs := assocSet handle { c with suspended := true } w.libinputs }

/-- Library call `libinput_resume`. -/
def libinput_resume (handle : Ptr) (w : World D) : Option (World D) :=
  match w.libinputs.lookup handle with
  | none => none
  | some c => some { w with libinputs := assocSet handle { c with suspended := false } w.libinputs }

/-- The call `wl_signal_add(&wlc_system_signals()->activated, &activated_listener)`:
linking a list node that is linked already corrupts the list. -/
def wl_signal_add_activated (w : World D) : Option (World D) :=
  if w.activated_linked then none else some { w with activated_linked := true }

/-- The call `wl_list_remove(&activated_listener.link)`: undefined on a node
that is not linked. -/
def wl_list_remove_activated (w : World D) : Option (World D) :=
  if w.activated_linked then some { w with activated_linked := false } else none


/-! ### The lifecycle functions of `udev.c` -/

/-- Library call `libinput_get_fd`. -/
def libinput_get_fd (handle : Ptr) : Fd := .libinput handle

/-- Library call `udev_monitor_get_fd`. -/
def udev_monitor_get_fd (monitor : Ptr) : Fd := .monitor monitor

/-- The static `input_set_event_loop`; `add_ok` tells whether
`wl_event_loop_add_fd` succeeds when it is called. -/
def input_set_event_loop (loop : Option Ptr) (add_ok : Bool) (w : World D) :
    Option (Bool × World D) :=
  let removed : Option (World D) :=
    match w.input.event_source with
    | some source =>
      match wl_event_source_remove source w with
      | none => none
      | some w1 => some { w1 with input := { w1.input with event_source := none } }
    | none => some w
  match removed with
  | none => none
  | some w1 =>
    match w1.input.handle, loop with
    | some handle, some l =>
      let r := wl_event_loop_add_fd l (libinput_get_fd handle) .input_event add_ok w1
      let w2 := { r.2 with input := { r.2.input with event_source := r.1 } }
      match r.1 with
      | none => some (false, w2)
      | some source => some (true, wl_event_source_check source w2)
    | _, _ => some (true, w1)

/-- The static `udev_set_event_loop`. -/
def udev_set_event_loop (loop : Option Ptr) (add_ok : Bool) (w : World D) :
    Option (Bool × World D) :=
  let removed : Option (World D) :=
    match w.udev.event_source with
    | some source =>
      match wl_event_source_remove source w with
      | none => none
      | some w1 => some { w1 with udev := { w1.udev with event_source := none } }
    | none => some w
  match removed with
  | none => none
  | some w1 =>
    match w1.udev.handle, w1.udev.monitor, loop with
    | some _, some monitor, some l =>
      let r := wl_event_loop_add_fd l (udev_monitor_get_fd monitor) .udev_event add_ok w1
      let w2 := { r.2 with udev := { r.2.udev with event_source := r.1 } }
      match r.1 with
      | none => some (false, w2)
      | some source => some (true, wl_event_source_check source w2)
    | _, _, _ => some (true, w1)

/-- The static `activated`, the listener of the activation signal; `active` is
the boolean the signal carries. -/
def activated (active : Bool) (w : World D) : Option (World D) :=
  match w.input.handle with
  | some handle => if !active then libinput_suspend handle w else libinput_resume handle w
  | none => some w

/-- The function `wlc_input_has_init`. -/
def wlc_input_has_init (w : World D) : Bool :=
  match w.input.handle with
  | some _ => true
  | none => false

/-- The function `wlc_input_terminate`. -/
def wlc_input_terminate (w : World D) : Option (World D) :=
  match input_set_event_loop none false w with
  | none => none
  | some (_, w1) =>
    let unreffed : Option (World D) :=
      match w1.input.handle with
      | some handle => libinput_unref handle w1
      | none => some w1
    match unreffed with
    | none => none
    | some w2 => some { w2 with input := ⟨none, none⟩ }

/-- The function `wlc_input_init`. -/
def wlc_input_init (env : Env) (w : World D) : Option (Bool × World D) :=
  match w.udev.handle with
  | none => none -- assert(udev.handle && "call wlc_udev_init first")
  | some udev_handle =>
    match w.input.handle with
    | some _ => some (true, w)
    | none =>
      match libinput_udev_create_context udev_handle env.libinput_udev_create_context_ok w with
      | none => none
      | some (created, w0) =>
        let w1 := { w0 with input := { w0.input with handle := created } }
        match created with
        | none => some (false, wlc_log .WLC_LOG_WARN "Failed to create libinput udev context" w1)
        | some handle =>
          let seat := match env.xdg_seat with
            | some xdg_seat => xdg_seat
            | none => "seat0"
          match libinput_udev_assign_seat handle seat env.libinput_udev_assign_seat_ok w1 with
          | none => none
          | some (rc, w2) =>
            if rc ≠ 0 then some (false, wlc_log .WLC_LOG_WARN "Failed to assign seat to libinput" w2)
            else
              match libinput_log_set_handler handle w2 with
              | none => none
              | some w3 =>
                match libinput_log_set_priority handle w3 with
                | none => none
                | some w4 => input_set_event_loop env.event_loop env.wl_event_loop_add_fd_ok w4

/-- The function `wlc_udev_terminate`. -/
def wlc_udev_terminate (w : World D) : Option (World D) :=
  let unlinked : Option (World D) :=
    match w.udev.handle with
    | some _ => wl_list_remove_activated w
    | none => some w
  match unlinked with
  | none => none
  | some w1 =>
    match udev_set_event_loop none false w1 with
    | none => none
    | some (_, w2) =>
      let unreffed : Option (World D) :=
        match w2.udev.handle with
        | some handle => udev_unref handle w2
        | none => some w2
      match unreffed with
      | none => none
      | some w3 => some { w3 with udev := ⟨none, none, none⟩ }

/-- The label `fail` of `wlc_udev_init`. -/
def wlc_udev_init_fail (w : World D) : Option (Bool × World D) :=
  match udev_set_event_loop none false w with
  | none => none
  | some (_, w1) =>
    match w1.udev.handle with
    | some handle =>
      match udev_unref handle w1 with
      | none => none
      | some w2 => some (false, w2)
    | none => some (false, w1)

/-- The function `wlc_udev_init`. -/
def wlc_udev_init (env : Env) (w : World D) : Option (Bool × World D) :=
  match w.udev.handle with
  | some _ => some (true, w)
  | none =>
    let r := udev_new env.udev_new_ok w
    let w1 := { r.2 with udev := { r.2.udev with handle := r.1 } }
    match r.1 with
    | none => some (false, w1)
    | some handle =>
      match udev_monitor_new_from_netlink handle env.udev_monitor_new_ok w1 with
      | none => none
      | some (created, w2) =>
        let w3 := { w2 with udev := { w2.udev with monitor := created } }
        match created with
        | none =>
          -- monitor_fail:
          wlc_udev_init_fail (wlc_log .WLC_LOG_WARN "Failed to create udev-monitor from netlink" w3)
        | some monitor =>
          match udev_monitor_filter_add_match_subsystem_devtype monitor "drm" w3 with
          | none => none
          | some w4 =>
            match udev_monitor_filter_add_match_subsystem_devtype monitor "input" w4 with
            | none => none
            | some w5 =>
              match udev_monitor_enable_receiving monitor
                  env.udev_monitor_enable_receiving_ok w5 with
              | none => none
              | some (rc, w6) =>
                if rc < 0 then
                  -- monitor_receiving_fail:
                  wlc_udev_init_fail
                    (wlc_log .WLC_LOG_WARN "Failed to enable udev-monitor receiving" w6)
                else
                  match udev_set_event_loop env.event_loop env.wl_event_loop_add_fd_ok w6 with
                  | none => none
                  | some (false, w7) => wlc_udev_init_fail w7
                  | some (true, w7) =>
                    match wl_signal_add_activated w7 with
                    | none => none
                    | some w8 => some (true, w8)

/-! ### Runs of the pipeline -/

/-- What can happen to the pipeline: a call of one of its four lifecycle
functions, the delivery of the activation signal, or one of its descriptors
becoming readable. -/
inductive Op (D : Type) where
  | udev_init (env : Env)
  | input_init (env : Env)
  | input_terminate
  | udev_terminate
  | activation (active : Bool)
  | input_readable (rc : Int) (produced : List (libinput_event D))
  | udev_readable (received : Option udev_device)

/-- No call of a terminate function. -/
def Op.isTerminate : Op D → Bool
  | .input_terminate => true
  | .udev_terminate => true
  | _ => false

/-- The event loop calls a callback only through a registered source. -/
def registered (callback : Callback) (w : World D) : Bool :=
  w.sources.any (fun s => s.2.callback = callback)

/-- One step of the pipeline. The activation signal reaches `activated` when
the listener is linked; a readable descriptor reaches its callback when its
source is registered. -/
def step (op : Op D) (w : World D) : Option (World D) :=
  match op with
  | .udev_init env => (wlc_udev_init env w).map Prod.snd
  | .input_init env => (wlc_input_init env w).map Prod.snd
  | .input_terminate => wlc_input_terminate w
  | .udev_terminate => wlc_udev_terminate w
  | .activation active => if w.activated_linked then activated active w else some w
  | .input_readable rc produced =>
    if registered .input_event w then (input_event rc produced w).map Prod.snd else some w
  | .udev_readable received =>
    if registered .udev_event w then (udev_event received w).map Prod.snd else some w

/-- A run: the steps one after the other. -/
def run : List (Op D) → World D → Option (World D)
  | [], w => some w
  | op :: ops, w =>
    match step op w with
    | none => none
    | some w1 => run ops w1


/-- The delivery of an activation signal. -/
def Op.isActivation : Op D → Bool
  | .activation _ => true
  | _ => false

/-- Steps after which a suspended backend is still the suspended one: every
step but the delivery of an activation signal and `wlc_input_terminate`. -/
def Op.keepsSuspension : Op D → Bool
  | .activation _ => false
  | .input_terminate => false
  | _ => true

/-! ## The specification's reading of the normalizer -/

/-- The event kinds the specification calls mappable: pointer motion, absolute
pointer motion, pointer button, pointer axis, keyboard key. -/
def mappable : libinput_event_type → Bool
  | .LIBINPUT_EVENT_POINTER_MOTION => true
  | .LIBINPUT_EVENT_POINTER_MOTION_ABSOLUTE => true
  | .LIBINPUT_EVENT_POINTER_BUTTON => true
  | .LIBINPUT_EVENT_POINTER_AXIS => true
  | .LIBINPUT_EVENT_KEYBOARD_KEY => true
  | _ => false

/-- The normalized event the specification assigns to a backend event: the
variant of its kind with the backend's timestamp and payload, and none for a
kind without mapping. -/
def spec_normalize (e : libinput_event D) : Option (wlc_input_event D) :=
  match e.type with
  | .LIBINPUT_EVENT_POINTER_MOTION =>
    some ⟨.WLC_INPUT_EVENT_MOTION, e.pointer.time, .motion e.pointer.dx e.pointer.dy⟩
  | .LIBINPUT_EVENT_POINTER_MOTION_ABSOLUTE =>
    some ⟨.WLC_INPUT_EVENT_MOTION_ABSOLUTE, e.pointer.time,
      .motion_abs (fun p width => p.absolute_x_transformed width)
        (fun p height => p.absolute_y_transformed height) e.pointer⟩
  | .LIBINPUT_EVENT_POINTER_BUTTON =>
    some ⟨.WLC_INPUT_EVENT_BUTTON, e.pointer.time, .button e.pointer.button e.pointer.button_state⟩
  | .LIBINPUT_EVENT_POINTER_AXIS =>
    some ⟨.WLC_INPUT_EVENT_SCROLL, e.pointer.time, .scroll e.pointer.axis_value e.pointer.axis⟩
  | .LIBINPUT_EVENT_KEYBOARD_KEY =>
    some ⟨.WLC_INPUT_EVENT_KEY, e.keyboard.time, .key e.keyboard.key e.keyboard.key_state⟩
  | _ => none

/-- The log lines the `switch` writes for one event. -/
def switch_log (e : libinput_event D) : List (wlc_log_type × String) :=
  match e.type with
  | .LIBINPUT_EVENT_DEVICE_ADDED => [(.WLC_LOG_INFO, "INPUT DEVICE ADDED")]
  | .LIBINPUT_EVENT_DEVICE_REMOVED => [(.WLC_LOG_INFO, "INPUT DEVICE REMOVED")]
  | _ => []

/-- The emitted event `ev` carries the tag that matches the kind of the backend
event `e`, the backend's timestamp, and the payload of that tag read from `e`. -/
def carries (e : libinput_event D) (ev : wlc_input_event D) : Prop :=
  match e.type with
  | .LIBINPUT_EVENT_POINTER_MOTION =>
    ev.type = .WLC_INPUT_EVENT_MOTION ∧ ev.time = e.pointer.time ∧
      ev.payload = .motion e.pointer.dx e.pointer.dy
  | .LIBINPUT_EVENT_POINTER_MOTION_ABSOLUTE =>
    ev.type = .WLC_INPUT_EVENT_MOTION_ABSOLUTE ∧ ev.time = e.pointer.time ∧
      ∃ x y, ev.payload = .motion_abs x y e.pointer
  | .LIBINPUT_EVENT_POINTER_BUTTON =>
    ev.type = .WLC_INPUT_EVENT_BUTTON ∧ ev.time = e.pointer.time ∧
      ev.payload = .button e.pointer.button e.pointer.button_state
  | .LIBINPUT_EVENT_POINTER_AXIS =>
    ev.type = .WLC_INPUT_EVENT_SCROLL ∧ ev.time = e.pointer.time ∧
      ev.payload = .scroll e.pointer.axis_value e.pointer.axis
  | .LIBINPUT_EVENT_KEYBOARD_KEY =>
    ev.type = .WLC_INPUT_EVENT_KEY ∧ ev.time = e.keyboard.time ∧
      ev.payload = .key e.keyboard.key e.keyboard.key_state
  | _ => False

/-- The emitted event `ev` is the absolute motion of the backend event `e`: its
accessors, applied to its own context and a width (height) chosen by the
caller, return the backend's coordinate of `e` transformed to that width
(height); so its x results for the widths 800 and 400 agree exactly when the
backend's coordinates for these widths agree. -/
def lazy_accessors (e : libinput_event D) (ev : wlc_input_event D) : Prop :=
  ∃ x y internal, ev.payload = .motion_abs x y internal ∧
    (∀ width, x internal width = libinput_event_pointer_get_absolute_x_transformed e.pointer width) ∧
    (∀ height, y internal height =
      libinput_event_pointer_get_absolute_y_transformed e.pointer height) ∧
    (x internal 800 = x internal 400 ↔
      libinput_event_pointer_get_absolute_x_transformed e.pointer 800 =
        libinput_event_pointer_get_absolute_x_transformed e.pointer 400)

/-! ## Concrete inputs -/

/-- The value `LIBINPUT_BUTTON_STATE_PRESSED`, equal to `WL_POINTER_BUTTON_STATE_PRESSED`. -/
def BUTTON_STATE_PRESSED : Nat := 1

/-- An environment in which every call succeeds, with event loop 100 and no `XDG_SEAT`. -/
def env_ok : Env := ⟨true, true, true, true, true, true, some 100, none⟩

/-- The way libinput scales a device coordinate `v` of an axis `[lo, hi]` to a
screen extent. -/
def scale_axis (v lo hi : ℚ) (extent : Nat) : ℚ := (v - lo) * extent / (hi - lo + 1)

/-- A pointer record at time 0 resting at the origin of a device with axes `[0, 1023]`. -/
def pev_origin : libinput_event_pointer ℚ :=
  ⟨0, 0, 0, scale_axis 0 0 1023, scale_axis 0 0 1023, 0, 0, 0, 0⟩

/-- A keyboard record of zeros. -/
def kev_zero : libinput_event_keyboard := ⟨0, 0, 0⟩

/-- The backend event Motion(dx=1, dy=2) at t=100. -/
def ev_motion : libinput_event ℚ :=
  ⟨.LIBINPUT_EVENT_POINTER_MOTION, { pev_origin with time := 100, dx := 1, dy := 2 }, kev_zero⟩

/-- The backend event Button(code=272, pressed) at t=105. -/
def ev_button : libinput_event ℚ :=
  ⟨.LIBINPUT_EVENT_POINTER_BUTTON,
    { pev_origin with time := 105, button := 272, button_state := BUTTON_STATE_PRESSED }, kev_zero⟩

/-- A device-added notification. -/
def ev_added : libinput_event ℚ := ⟨.LIBINPUT_EVENT_DEVICE_ADDED, pev_origin, kev_zero⟩

/-- An absolute motion at t=7 of a pointer at the origin of its device. -/
def ev_abs_origin : libinput_event ℚ :=
  ⟨.LIBINPUT_EVENT_POINTER_MOTION_ABSOLUTE, { pev_origin with time := 7 }, kev_zero⟩

/-- An absolute motion at t=8 of a pointer in the middle of its device. -/
def ev_abs_middle : libinput_event ℚ :=
  ⟨.LIBINPUT_EVENT_POINTER_MOTION_ABSOLUTE,
    { pev_origin with time := 8, absolute_x_transformed := scale_axis 512 0 1023,
                      absolute_y_transformed := scale_axis 512 0 1023 }, kev_zero⟩

/-- The libinput context of `world_active`. -/
def ctx_active : libinput_t ℚ := ⟨1, some "seat0", false, [], 0, true, true⟩

/-- The world after `wlc_udev_init` and `wlc_input_init` succeeded in a fresh process. -/
def world_active : World ℚ :=
  { input := ⟨some 4, some 5⟩, udev := ⟨some 1, some 2, some 3⟩, brk := 6, udev_live := [1],
    monitors := [(2, ⟨1, ["drm", "input"], true⟩)],
    libinputs := [(4, ctx_active)],
    sources := [(5, ⟨100, .libinput 4, .input_event⟩), (3, ⟨100, .monitor 2, .udev_event⟩)],
    activated_linked := true, signal_input := [], destroyed := [], log := [] }

/-- The world after `wlc_udev_init` succeeded in a fresh process. -/
def world_monitor : World ℚ :=
  { input := ⟨none, none⟩, udev := ⟨some 1, some 2, some 3⟩, brk := 4, udev_live := [1],
    monitors := [(2, ⟨1, ["drm", "input"], true⟩)], libinputs := [],
    sources := [(3, ⟨100, .monitor 2, .udev_event⟩)],
    activated_linked := true, signal_input := [], destroyed := [], log := [] }

/-- The world `world_active` after the activation signal carried `false`. -/
def world_suspended : World ℚ :=
  { world_active with libinputs := [(4, { ctx_active with suspended := true })] }

/-- An environment in which only `udev_monitor_new_from_netlink` fails. -/
def env_monitor_fail : Env := { env_ok with udev_monitor_new_ok := false }

/-- An environment in which only `udev_monitor_enable_receiving` fails. -/
def env_receiving_fail : Env := { env_ok with udev_monitor_enable_receiving_ok := false }

/-- An environment in which only `libinput_udev_assign_seat` fails. -/
def env_seat_fail : Env := { env_ok with libinput_udev_assign_seat_ok := false }

/-- The C string "add". -/
def c_add : CStr := ['a', 'd', 'd']

/-- The C string "remove". -/
def c_remove : CStr := ['r', 'e', 'm', 'o', 'v', 'e']

/-- The C string "input". -/
def c_input : CStr := ['i', 'n', 'p', 'u', 't']

/-- The C string "drm". -/
def c_drm : CStr := ['d', 'r', 'm']

/-- The record of a change of `card1` that carries `HOTPLUG=1`. -/
def dev_card1_hotplug : udev_device :=
  ⟨"card1".toList, some "1".toList, some c_drm, some "change".toList,
    [("HOTPLUG".toList, "1".toList)]⟩

/-- The record of a change of `card0` that carries `HOTPLUG=1`. -/
def dev_card0_hotplug : udev_device :=
  ⟨"card0".toList, some "0".toList, some c_drm, some "change".toList,
    [("HOTPLUG".toList, "1".toList)]⟩

/-- The record of a display controller `card1` being added. -/
def dev_card1_add : udev_device := ⟨"card1".toList, some "1".toList, some c_drm, some c_add, []⟩

/-- The record of an input node `event5` being removed. -/
def dev_event5_remove : udev_device :=
  ⟨"event5".toList, some "5".toList, some c_input, some c_remove, []⟩

/-- The log line of a record classified as added. -/
def line_added : wlc_log_type × String := (.WLC_LOG_INFO, "udev: device added")

/-- The log line of a record classified as removed. -/
def line_removed : wlc_log_type × String := (.WLC_LOG_INFO, "udev: device removed")

/-- The log line of a record classified as hotplug. -/
def line_hotplug : wlc_log_type × String := (.WLC_LOG_INFO, "udev: hotplug")

end Code

/-! ## Lemmas: association lists -/

section Assoc
variable {β : Type}

theorem lookup_assocSet_self (k : Ptr) (v : β) :
    ∀ (l : List (Ptr × β)) (v0 : β), l.lookup k = some v0 → (assocSet k v l).lookup k = some v
  | [], _, h => by simp at h
  | (k', v') :: rest, v0, h => by
    by_cases hk : k' = k
    · simp [assocSet, hk, List.lookup]
    · have hk' : (k == k') = false := by simpa using fun e => hk e.symm
      simp only [List.lookup, hk'] at h
      simp only [assocSet, hk, if_false, List.lookup, hk']
      exact lookup_assocSet_self k v rest v0 h

theorem assocSet_assocSet (k : Ptr) (v1 v2 : β) :
    ∀ l : List (Ptr × β), assocSet k v2 (assocSet k v1 l) = assocSet k v2 l
  | [] => rfl
  | (k', v') :: rest => by
    by_cases hk : k' = k
    · simp [assocSet, hk]
    · simp [assocSet, hk, assocSet_assocSet k v1 v2 rest]

theorem assocSet_lookup (k : Ptr) (v : β) :
    ∀ l : List (Ptr × β), l.lookup k = some v → assocSet k v l = l
  | [], _ => rfl
  | (k', v') :: rest, h => by
    by_cases hk : k' = k
    · have : (k == k') = true := by simp [hk]
      simp only [List.lookup, this] at h
      simp only [Option.some.injEq] at h
      simp [assocSet, hk, h]
    · have hk' : (k == k') = false := by simpa using fun e => hk e.symm
      simp only [List.lookup, hk'] at h
      simp [assocSet, hk, assocSet_lookup k v rest h]

end Assoc

/-! ## Lemmas: the dispatch pump -/

section Pump
variable {D : Type}

theorem input_event_switch_eq (e : libinput_event D) (w : World D) :
    input_event_switch e w =
      { w with signal_input := w.signal_input ++ (spec_normalize e).toList,
               log := w.log ++ switch_log e } := by
  obtain ⟨t, p, k⟩ := e
  cases t <;>
    simp [input_event_switch, spec_normalize, switch_log, wlc_log, wl_signal_emit_input,
      pointer_abs_x, pointer_abs_y]
  exact ⟨rfl, rfl⟩

theorem input_event_loop_eq (h : Ptr) :
    ∀ (q : List (libinput_event D)) (w : World D) (c : libinput_t D) (fuel : Nat),
      w.libinputs.lookup h = some c → c.queue = q → q.length < fuel →
      input_event_loop (some h) fuel w =
        some { w with libinputs := assocSet h { c with queue := [] } w.libinputs,
                      signal_input := w.signal_input ++ q.filterMap spec_normalize,
                      destroyed := w.destroyed ++ q,
                      log := w.log ++ q.flatMap switch_log }
  | [], w, c, fuel, hc, hq, hf => by
    obtain ⟨f, rfl⟩ : ∃ f, fuel = f + 1 := ⟨fuel - 1, by omega⟩
    have hcq : ({ c with queue := [] } : libinput_t D) = c := by cases c; simp_all
    simp [input_event_loop, libinput_get_event, hc, hq, hcq, assocSet_lookup h c _ hc]
  | e :: rest, w, c, fuel, hc, hq, hf => by
    obtain ⟨f, rfl⟩ : ∃ f, fuel = f + 1 := ⟨fuel - 1, by omega⟩
    have hf' : rest.length < f := by simpa using hf
    simp only [input_event_loop, libinput_get_event, hc, hq]
    rw [input_event_loop_eq h rest _ { c with queue := rest } f
      (by simpa [libinput_event_destroy, input_event_switch_eq] using
        lookup_assocSet_self h _ w.libinputs c hc) rfl hf']
    simp [libinput_event_destroy, input_event_switch_eq, assocSet_assocSet, List.filterMap_cons,
      List.flatMap_cons]
    cases hn : spec_normalize e <;> simp


theorem input_event_eq (w : World D) (h : Ptr) (c : libinput_t D) (rc : Int)
    (produced : List (libinput_event D)) (hh : w.input.handle = some h)
    (hc : w.libinputs.lookup h = some c) :
    input_event rc produced w =
      some (0, { w with
        libinputs := assocSet h { c with dispatched := c.dispatched + 1, queue := [] } w.libinputs,
        signal_input := w.signal_input ++ (c.refill produced).filterMap spec_normalize,
        destroyed := w.destroyed ++ c.refill produced,
        log := w.log ++ (if rc ≠ 0 then [(.WLC_LOG_WARN, "Failed to dispatch libinput")] else [])
                 ++ (c.refill produced).flatMap switch_log }) := by
  have hl := lookup_assocSet_self h
    { c with dispatched := c.dispatched + 1, queue := c.refill produced } w.libinputs c hc
  by_cases hrc : rc = 0
  · simp only [input_event, libinput_dispatch, hh, hc, hrc, ne_eq, not_true_eq_false, if_false,
      queued, hl]
    rw [input_event_loop_eq h (c.refill produced) _ _ _ hl rfl (by simp)]
    simp [assocSet_assocSet]
  · simp only [input_event, libinput_dispatch, hh, hc, hrc, ne_eq, not_false_eq_true, if_true,
      queued, wlc_log, hl]
    rw [input_event_loop_eq h (c.refill produced) _ _ _ hl rfl (by simp)]
    simp [assocSet_assocSet]

theorem mappable_eq_isSome (e : libinput_event D) :
    mappable e.type = (spec_normalize e).isSome := by
  obtain ⟨t, p, k⟩ := e
  cases t <;> rfl

theorem forall₂_filter_filterMap {α β : Type} (f : α → Option β) (p : α → Bool)
    (hp : ∀ a, p a = (f a).isSome) :
    ∀ q : List α, List.Forall₂ (fun a b => f a = some b) (q.filter p) (q.filterMap f)
  | [] => by simp
  | a :: q => by
    have ih := forall₂_filter_filterMap f p hp q
    cases hfa : f a with
    | none =>
      have : p a = false := by simp [hp, hfa]
      simpa [List.filter_cons, List.filterMap_cons, hfa, this] using ih
    | some b =>
      have : p a = true := by simp [hp, hfa]
      have hcons : List.Forall₂ (fun a b => f a = some b) (a :: q.filter p) (b :: q.filterMap f) :=
        .cons hfa ih
      simpa [List.filter_cons, List.filterMap_cons, hfa, this] using hcons

theorem length_filterMap_eq_countP {α β : Type} (f : α → Option β) (p : α → Bool)
    (hp : ∀ a, p a = (f a).isSome) (q : List α) :
    (q.filterMap f).length = q.countP p := by
  have h := (forall₂_filter_filterMap f p hp q).length_eq
  rw [← h, List.countP_eq_length_filter]

theorem carries_of_spec_normalize (e : libinput_event D) (ev : wlc_input_event D)
    (h : spec_normalize e = some ev) : carries e ev := by
  obtain ⟨t, p, k⟩ := e
  cases t <;> simp [spec_normalize] at h <;> subst h <;> simp [carries]

/-- C1: whatever events are queued when `input_event` drains the backend, the
events it emits on the input signal are, position by position, the normalized
forms of the mappable events of the queue in the order of the queue, so that
their number is the number of mappable events; events of any other kind
(device added or removed among them) emit nothing. -/
theorem input_event_emits_mappable_in_order (w : World D) (h : Ptr) (c : libinput_t D)
    (rc : Int) (produced : List (libinput_event D)) (hh : w.input.handle = some h)
    (hc : w.libinputs.lookup h = some c) :
    ∃ w' emitted, input_event rc produced w = some (0, w') ∧
      w'.signal_input = w.signal_input ++ emitted ∧
      List.Forall₂ (fun e ev => spec_normalize e = some ev)
        ((c.refill produced).filter (fun e => mappable e.type)) emitted ∧
      emitted.length = (c.refill produced).countP (fun e => mappable e.type) :=
  ⟨_, (c.refill produced).filterMap spec_normalize, input_event_eq w h c rc produced hh hc, rfl,
    forall₂_filter_filterMap spec_normalize _ mappable_eq_isSome _,
    length_filterMap_eq_countP spec_normalize _ mappable_eq_isSome _⟩

/-- C1 at a concrete input: a device-added notification, a motion and a button
press queued on the active world. -/
theorem input_event_emits_mappable_in_order_witness :
    ∃ w' emitted, input_event 0 [ev_added, ev_motion, ev_button] world_active = some (0, w') ∧
      w'.signal_input = world_active.signal_input ++ emitted ∧
      List.Forall₂ (fun e ev => spec_normalize e = some ev)
        ((ctx_active.refill [ev_added, ev_motion, ev_button]).filter (fun e => mappable e.type))
        emitted ∧
      emitted.length =
        (ctx_active.refill [ev_added, ev_motion, ev_button]).countP (fun e => mappable e.type) :=
  input_event_emits_mappable_in_order world_active 4 ctx_active 0 _ rfl rfl


/-- C2: every event `input_event` emits for a mappable backend event carries the
tag of the backend kind (motion, absolute motion, button, scroll for axis, key),
the backend's timestamp and the payload of that tag copied from the backend
event; and the queue Motion(dx=1, dy=2) at t=100, Button(272, pressed) at t=105
emits Motion(1, 2) with time 100 and then Button(272, pressed) with time 105. -/
theorem input_event_tag_time_payload :
    (∀ (D : Type) (w : World D) (h : Ptr) (c : libinput_t D) (rc : Int)
        (produced : List (libinput_event D)),
        w.input.handle = some h → w.libinputs.lookup h = some c →
        ∃ w' emitted, input_event rc produced w = some (0, w') ∧
          w'.signal_input = w.signal_input ++ emitted ∧
          List.Forall₂ carries ((c.refill produced).filter (fun e => mappable e.type)) emitted) ∧
    (input_event 0 [ev_motion, ev_button] world_active).map (fun r => (r.1, r.2.signal_input)) =
      some (0, [⟨.WLC_INPUT_EVENT_MOTION, 100, .motion 1 2⟩,
                ⟨.WLC_INPUT_EVENT_BUTTON, 105, .button 272 BUTTON_STATE_PRESSED⟩]) := by
  refine ⟨fun D w h c rc produced hh hc => ?_, ?_⟩
  · refine ⟨_, (c.refill produced).filterMap spec_normalize,
      input_event_eq w h c rc produced hh hc, rfl, ?_⟩
    exact (forall₂_filter_filterMap spec_normalize _ mappable_eq_isSome _).imp
      (fun {e ev} hn => carries_of_spec_normalize e ev hn)
  · rw [input_event_eq world_active 4 ctx_active 0 _ rfl rfl]
    rfl

/-- C2 at a concrete input: the general statement on the active world with the
motion and the button press produced by the devices. -/
theorem input_event_tag_time_payload_witness :
    ∃ w' emitted, input_event 0 [ev_motion, ev_button] world_active = some (0, w') ∧
      w'.signal_input = world_active.signal_input ++ emitted ∧
      List.Forall₂ carries
        ((ctx_active.refill [ev_motion, ev_button]).filter (fun e => mappable e.type)) emitted :=
  input_event_tag_time_payload.1 ℚ world_active 4 ctx_active 0 _ rfl rfl

/-- C9: `input_event` runs the dispatch step once and, whatever that step
returns, drains the whole queue (it is empty afterwards and each drained event
was destroyed once, in order), emits what it emits for the same queue after a
dispatch that returned 0, and returns 0. -/
theorem input_event_drains_after_any_dispatch (w : World D) (h : Ptr) (c : libinput_t D)
    (rc : Int) (produced : List (libinput_event D)) (hh : w.input.handle = some h)
    (hc : w.libinputs.lookup h = some c) :
    ∃ w', input_event rc produced w = some (0, w') ∧
      (∃ c', w'.libinputs.lookup h = some c' ∧ c'.dispatched = c.dispatched + 1 ∧
        c'.queue = []) ∧
      w'.destroyed = w.destroyed ++ c.refill produced ∧
      ∃ w0, input_event 0 produced w = some (0, w0) ∧ w'.signal_input = w0.signal_input := by
  refine ⟨_, input_event_eq w h c rc produced hh hc,
    ⟨{ c with dispatched := c.dispatched + 1, queue := [] }, ?_, rfl, rfl⟩, rfl,
    _, input_event_eq w h c 0 produced hh hc, rfl⟩
  exact lookup_assocSet_self h _ w.libinputs c hc

/-- C9 at a concrete input: a dispatch step that fails with -1 on the active
world while the devices produced a notification, a motion and a button press. -/
theorem input_event_drains_after_any_dispatch_witness :
    ∃ w', input_event (-1) [ev_added, ev_motion, ev_button] world_active = some (0, w') ∧
      (∃ c', w'.libinputs.lookup 4 = some c' ∧ c'.dispatched = ctx_active.dispatched + 1 ∧
        c'.queue = []) ∧
      w'.destroyed = world_active.destroyed ++ ctx_active.refill [ev_added, ev_motion, ev_button] ∧
      ∃ w0, input_event 0 [ev_added, ev_motion, ev_button] world_active = some (0, w0) ∧
        w'.signal_input = w0.signal_input :=
  input_event_drains_after_any_dispatch world_active 4 ctx_active (-1) _ rfl rfl

theorem lazy_accessors_of_spec_normalize (e : libinput_event D) (ev : wlc_input_event D)
    (ht : e.type = .LIBINPUT_EVENT_POINTER_MOTION_ABSOLUTE) (h : spec_normalize e = some ev) :
    lazy_accessors e ev := by
  obtain ⟨t, p, k⟩ := e
  subst ht
  simp [spec_normalize] at h
  subst h
  exact ⟨_, _, p, rfl, fun _ => rfl, fun _ => rfl, Iff.rfl⟩

/-- C10 as stated fails: the absolute motion of a pointer resting at the origin
of its device is emitted with an x accessor that returns the same result for
the widths 800 and 400. -/
theorem abs_accessor_widths_can_agree :
    ¬ (∀ (w : World ℚ) (rc : Int) (produced : List (libinput_event ℚ)) (w' : World ℚ)
        (ev : wlc_input_event ℚ) (x y : libinput_event_pointer ℚ → Nat → ℚ)
        (internal : libinput_event_pointer ℚ),
        input_event rc produced w = some (0, w') → ev ∈ w'.signal_input →
        ev.payload = .motion_abs x y internal → x internal 800 ≠ x internal 400) := by
  intro H
  refine H world_active 0 [ev_abs_origin] _
    ⟨.WLC_INPUT_EVENT_MOTION_ABSOLUTE, 7, .motion_abs pointer_abs_x pointer_abs_y
      ev_abs_origin.pointer⟩ pointer_abs_x pointer_abs_y ev_abs_origin.pointer
    (input_event_eq world_active 4 ctx_active 0 _ rfl rfl) ?_ rfl ?_
  · simp [world_active, ctx_active, libinput_t.refill, spec_normalize, ev_abs_origin]
    exact ⟨rfl, rfl⟩
  · simp [pointer_abs_x, ev_abs_origin, pev_origin, scale_axis]

/-- C10, amended: every absolute motion `input_event` emits holds accessors that,
applied to the event's context and the width (height) the consumer supplies,
return the backend's coordinate of that event transformed to this width
(height), computed at the call; the x results for the widths 800 and 400 are
equal exactly when the backend's coordinates for these two widths are equal. -/
theorem abs_accessors_evaluated_at_call (w : World D) (h : Ptr) (c : libinput_t D)
    (rc : Int) (produced : List (libinput_event D)) (hh : w.input.handle = some h)
    (hc : w.libinputs.lookup h = some c) :
    ∃ w' emitted, input_event rc produced w = some (0, w') ∧
      w'.signal_input = w.signal_input ++ emitted ∧
      List.Forall₂
        (fun e ev => e.type = .LIBINPUT_EVENT_POINTER_MOTION_ABSOLUTE → lazy_accessors e ev)
        ((c.refill produced).filter (fun e => mappable e.type)) emitted := by
  refine ⟨_, (c.refill produced).filterMap spec_normalize,
    input_event_eq w h c rc produced hh hc, rfl, ?_⟩
  exact (forall₂_filter_filterMap spec_normalize _ mappable_eq_isSome _).imp
    (fun {e ev} hn ht => lazy_accessors_of_spec_normalize e ev ht hn)

/-- C10, amended, at a concrete input: an absolute motion in the middle of the
device, drained on the active world. -/
theorem abs_accessors_evaluated_at_call_witness :
    ∃ w' emitted, input_event 0 [ev_abs_middle] world_active = some (0, w') ∧
      w'.signal_input = world_active.signal_input ++ emitted ∧
      List.Forall₂
        (fun e ev => e.type = .LIBINPUT_EVENT_POINTER_MOTION_ABSOLUTE → lazy_accessors e ev)
        ((ctx_active.refill [ev_abs_middle]).filter (fun e => mappable e.type)) emitted :=
  abs_accessors_evaluated_at_call world_active 4 ctx_active 0 _ rfl rfl

end Pump

/-! ## Lemmas: what the lifecycle functions leave alone -/

section Life
variable {D : Type}

theorem wlc_udev_init_frame (env : Env) (w w' : World D) (b : Bool)
    (h : wlc_udev_init env w = some (b, w')) :
    w'.input = w.input ∧ w'.libinputs = w.libinputs ∧ w'.signal_input = w.signal_input ∧
      (b = true → w'.udev.handle.isSome = true) := by
  obtain ⟨o1, o2, o3, o4, o5, o6, loop, seat⟩ := env
  unfold wlc_udev_init at h
  split at h
  · simp_all
  · have key : ∀ (es : Option Ptr) (lk : Option wl_event_source_t) (al : Bool),
        w.udev.event_source = es → (∀ src, es = some src → List.lookup src w.sources = lk) →
        w.activated_linked = al →
        w'.input = w.input ∧ w'.libinputs = w.libinputs ∧ w'.signal_input = w.signal_input ∧
          (b = true → w'.udev.handle.isSome = true) := by
      intro es lk al hes hl hal
      cases es <;> cases lk <;> cases al <;>
      cases o1 <;> cases o2 <;> cases o3 <;> cases o4 <;> cases loop <;>
        simp [udev_new, udev_monitor_new_from_netlink,
          udev_monitor_filter_add_match_subsystem_devtype, udev_monitor_enable_receiving,
          udev_set_event_loop, wl_event_loop_add_fd, wl_event_source_remove,
          wl_event_source_check, wl_signal_add_activated, wlc_udev_init_fail, udev_unref,
          wlc_log, assocSet, udev_monitor_get_fd, hes, hl, hal] at h hl
      all_goals (obtain ⟨rfl, rfl⟩ := h; simp)
    rcases hes : w.udev.event_source with _ | src
    · exact key none none _ hes (by simp) rfl
    · exact key (some src) (List.lookup src w.sources) _ hes (by simp) rfl

theorem wlc_udev_init_again (env : Env) (w : World D) (h : w.udev.handle.isSome = true) :
    wlc_udev_init env w = some (true, w) := by
  unfold wlc_udev_init
  split
  · rfl
  · simp_all

theorem wlc_udev_terminate_frame (w w' : World D) (h : wlc_udev_terminate w = some w') :
    w'.input = w.input ∧ w'.libinputs = w.libinputs ∧ w'.signal_input = w.signal_input := by
  have key : ∀ (uh es : Option Ptr) (lk : Option wl_event_source_t) (al mem : Bool),
      w.udev.handle = uh → w.udev.event_source = es →
      (∀ src, es = some src → List.lookup src w.sources = lk) → w.activated_linked = al →
      (∀ v, uh = some v → decide (v ∈ w.udev_live) = mem) →
      w'.input = w.input ∧ w'.libinputs = w.libinputs ∧ w'.signal_input = w.signal_input := by
    intro uh es lk al mem huh hes hl hal hmem
    cases uh <;> cases es <;> cases lk <;> cases al <;> cases mem <;>
      simp [wlc_udev_terminate, wl_list_remove_activated, udev_set_event_loop,
        wl_event_source_remove, udev_unref, huh, hes, hl, hal] at h hl hmem
    all_goals first
      | (obtain rfl := h; simp)
      | (simp [hmem] at h; obtain rfl := h; simp)
      | (simp [hmem] at h)
  rcases huh : w.udev.handle with _ | v <;> rcases hes : w.udev.event_source with _ | src
  · exact key none none none _ true huh hes (by simp) rfl (by simp)
  · exact key none (some src) (List.lookup src w.sources) _ true huh hes (by simp) rfl (by simp)
  · exact key (some v) none none _ (decide (v ∈ w.udev_live)) huh hes (by simp) rfl (by simp)
  · exact key (some v) (some src) (List.lookup src w.sources) _ (decide (v ∈ w.udev_live)) huh hes
      (by simp) rfl (by simp)

theorem udev_event_frame (received : Option udev_device) (w w' : World D) (rc : Int)
    (h : udev_event received w = some (rc, w')) :
    rc = 0 ∧ ∃ lines, w' = { w with log := w.log ++ lines } := by
  unfold udev_event at h
  split at h
  · simp at h
  · simp at h
    obtain ⟨rfl, rfl⟩ := h
    exact ⟨rfl, [], by simp⟩
  · split at h
    · simp [wlc_log, udev_device_unref] at h
      obtain ⟨rfl, rfl⟩ := h
      exact ⟨rfl, _, by simp [List.append_assoc]; rfl⟩
    · simp only [udev_device_unref, udev_event_action] at h
      repeat' split at h
      all_goals
        simp [wlc_log] at h
        obtain ⟨rfl, rfl⟩ := h
        exact ⟨rfl, _, by simp [List.append_assoc]; rfl⟩


theorem wlc_input_init_again (env : Env) (w : World D) (hu : w.udev.handle.isSome = true)
    (hi : w.input.handle.isSome = true) : wlc_input_init env w = some (true, w) := by
  unfold wlc_input_init
  split
  · simp_all
  · split
    · rfl
    · simp_all

theorem input_set_event_loop_frame (loop : Option Ptr) (ok : Bool) (w w' : World D) (b : Bool)
    (h : input_set_event_loop loop ok w = some (b, w')) :
    w'.udev = w.udev ∧ w'.signal_input = w.signal_input ∧
      w'.activated_linked = w.activated_linked ∧ w'.libinputs = w.libinputs ∧
      w'.input.handle = w.input.handle := by
  have key : ∀ (es ih : Option Ptr) (lk : Option wl_event_source_t),
      w.input.event_source = es → w.input.handle = ih →
      (∀ src, es = some src → List.lookup src w.sources = lk) →
      w'.udev = w.udev ∧ w'.signal_input = w.signal_input ∧
        w'.activated_linked = w.activated_linked ∧ w'.libinputs = w.libinputs ∧
        w'.input.handle = w.input.handle := by
    intro es ih lk hes hih hl
    cases es <;> cases ih <;> cases lk <;> cases loop <;> cases ok <;>
      simp [input_set_event_loop, wl_event_loop_add_fd, wl_event_source_remove,
        wl_event_source_check, hes, hih, hl] at h hl
    all_goals (obtain ⟨rfl, rfl⟩ := h; simp [hih])
  rcases hes : w.input.event_source with _ | src
  · exact key none _ none hes rfl (by simp)
  · exact key (some src) _ (List.lookup src w.sources) hes rfl (by simp)

theorem wlc_input_init_frame (env : Env) (w w' : World D) (b : Bool)
    (h : wlc_input_init env w = some (b, w')) :
    w'.udev = w.udev ∧ w'.signal_input = w.signal_input ∧
      w'.activated_linked = w.activated_linked ∧ w.udev.handle.isSome = true ∧
      (b = true → w'.input.handle.isSome = true) ∧
      (w.input.handle = none → ∀ p, w'.input.handle = some p →
        ∃ c, w'.libinputs.lookup p = some c ∧ c.queue = []) := by
  rcases hu : w.udev.handle with _ | u
  · simp [wlc_input_init, hu] at h
  rcases hi : w.input.handle with _ | i
  · by_cases hmem : u ∈ w.udev_live
    · rcases ho5 : env.libinput_udev_create_context_ok with _ | _
      · simp [wlc_input_init, libinput_udev_create_context, wlc_log, hu, hi, hmem, ho5] at h
        obtain ⟨rfl, rfl⟩ := h
        simp [hu]
      · rcases ho6 : env.libinput_udev_assign_seat_ok with _ | _
        · simp [wlc_input_init, libinput_udev_create_context, libinput_udev_assign_seat, wlc_log,
            hu, hi, hmem, ho5, ho6] at h
          obtain ⟨rfl, rfl⟩ := h
          simp [hu]
        · simp [wlc_input_init, libinput_udev_create_context, libinput_udev_assign_seat,
            libinput_log_set_handler, libinput_log_set_priority, assocSet,
            hu, hi, hmem, ho5, ho6] at h
          obtain ⟨h1, h2, h3, h4, h5⟩ := input_set_event_loop_frame _ _ _ _ _ h
          simp at h1 h2 h3 h4 h5
          refine ⟨h1, h2, h3, rfl, fun _ => by simp [h5], fun _ p hp => ?_⟩
          rw [h5] at hp
          simp at hp
          subst hp
          simp [h4]
    · simp [wlc_input_init, libinput_udev_create_context, hu, hi, hmem] at h
  · have := wlc_input_init_again env w (by simp [hu]) (by simp [hi])
    rw [this] at h
    simp at h
    obtain ⟨rfl, rfl⟩ := h
    simp [hu, hi]

theorem wlc_input_terminate_input (w w' : World D) (h : wlc_input_terminate w = some w') :
    w'.input = ⟨none, none⟩ ∧ w'.signal_input = w.signal_input ∧ w'.udev = w.udev := by
  rcases h1 : input_set_event_loop none false w with _ | ⟨b, w1⟩
  · simp [wlc_input_terminate, h1] at h
  obtain ⟨f1, f2, -, -, -⟩ := input_set_event_loop_frame _ _ _ _ _ h1
  rcases hi : w1.input.handle with _ | i
  · simp [wlc_input_terminate, h1, hi] at h
    subst h
    exact ⟨rfl, f2, f1⟩
  · rcases hl : w1.libinputs.lookup i with _ | c
    · simp [wlc_input_terminate, h1, hi, libinput_unref, hl] at h
    · simp [wlc_input_terminate, h1, hi, libinput_unref, hl] at h
      subst h
      exact ⟨rfl, f2, f1⟩

theorem activated_frame (active : Bool) (w w' : World D) (h : activated active w = some w') :
    w'.input = w.input ∧ w'.signal_input = w.signal_input ∧ w'.udev = w.udev ∧
      ∀ p, w.input.handle = some p → ∃ c, w.libinputs.lookup p = some c ∧
        w'.libinputs.lookup p = some { c with suspended := !active } := by
  rcases hi : w.input.handle with _ | i
  · simp [activated, hi] at h
    subst h
    simp [hi]
  · rcases hl : w.libinputs.lookup i with _ | c
    · cases active <;> simp [activated, hi, libinput_suspend, libinput_resume, hl] at h
    · cases active <;> simp [activated, hi, libinput_suspend, libinput_resume, hl] at h <;>
        subst h <;> refine ⟨rfl, rfl, rfl, fun p hp => ?_⟩ <;>
        obtain rfl : i = p := by simpa using hp
      · exact ⟨c, hl, lookup_assocSet_self i _ w.libinputs c hl⟩
      · exact ⟨c, hl, lookup_assocSet_self i _ w.libinputs c hl⟩

theorem input_event_some (rc : Int) (produced : List (libinput_event D)) (w w' : World D)
    (r : Int) (h : input_event rc produced w = some (r, w')) :
    ∃ p c, w.input.handle = some p ∧ w.libinputs.lookup p = some c := by
  rcases hi : w.input.handle with _ | p
  · simp [input_event, libinput_dispatch, hi] at h
  · rcases hl : w.libinputs.lookup p with _ | c
    · simp [input_event, libinput_dispatch, hi, hl] at h
    · exact ⟨p, c, rfl, hl⟩

theorem input_event_frame (rc : Int) (produced : List (libinput_event D)) (w w' : World D)
    (r : Int) (h : input_event rc produced w = some (r, w')) :
    w'.input = w.input ∧ w'.udev = w.udev ∧
      ∀ p, w.input.handle = some p → ∃ c, w.libinputs.lookup p = some c ∧
        w'.libinputs.lookup p =
          some { c with dispatched := c.dispatched + 1, queue := [] } := by
  obtain ⟨p, c, hp, hc⟩ := input_event_some rc produced w w' r h
  rw [input_event_eq w p c rc produced hp hc] at h
  simp only [Option.some.injEq, Prod.mk.injEq] at h
  obtain ⟨-, rfl⟩ := h
  refine ⟨rfl, rfl, fun q hq => ?_⟩
  obtain rfl : p = q := by simpa [hp] using hq
  exact ⟨c, hc, lookup_assocSet_self p _ w.libinputs c hc⟩

/-! ## Lemmas: invariants of runs -/

theorem step_keeps_handles (op : Op D) (w w' : World D) (hop : op.isTerminate = false)
    (h : step op w = some w') :
    (w.udev.handle.isSome = true → w'.udev.handle.isSome = true) ∧
      (w.input.handle.isSome = true → w'.input.handle.isSome = true) := by
  cases op with
  | udev_init env =>
    rcases hr : wlc_udev_init env w with _ | ⟨b, w1⟩
    · simp [step, hr] at h
    · simp [step, hr] at h
      subst h
      obtain ⟨hi, -, -, -⟩ := wlc_udev_init_frame env w w1 b hr
      refine ⟨fun hu => ?_, fun hh => by rw [hi]; exact hh⟩
      rw [wlc_udev_init_again env w hu] at hr
      simp at hr
      rw [← hr.2]
      exact hu
  | input_init env =>
    rcases hr : wlc_input_init env w with _ | ⟨b, w1⟩
    · simp [step, hr] at h
    · simp [step, hr] at h
      subst h
      obtain ⟨hu, -, -, hus, -, -⟩ := wlc_input_init_frame env w w1 b hr
      refine ⟨fun hh => by rw [hu]; exact hh, fun hh => ?_⟩
      rw [wlc_input_init_again env w hus hh] at hr
      simp at hr
      rw [← hr.2]
      exact hh
  | input_terminate => simp [Op.isTerminate] at hop
  | udev_terminate => simp [Op.isTerminate] at hop
  | activation active =>
    by_cases hl : w.activated_linked = true
    · simp [step, hl] at h
      obtain ⟨hi, -, hu, -⟩ := activated_frame active w w' h
      rw [hi, hu]
      exact ⟨id, id⟩
    · simp [step, hl] at h
      subst h
      exact ⟨id, id⟩
  | input_readable rc produced =>
    by_cases hl : registered .input_event w = true
    · rcases hr : input_event rc produced w with _ | ⟨r, w1⟩
      · simp [step, hl, hr] at h
      · simp [step, hl, hr] at h
        subst h
        obtain ⟨hi, hu, -⟩ := input_event_frame rc produced w w1 r hr
        rw [hi, hu]
        exact ⟨id, id⟩
    · simp [step, hl] at h
      subst h
      exact ⟨id, id⟩
  | udev_readable received =>
    by_cases hl : registered .udev_event w = true
    · rcases hr : udev_event received w with _ | ⟨r, w1⟩
      · simp [step, hl, hr] at h
      · simp [step, hl, hr] at h
        subst h
        obtain ⟨-, lines, rfl⟩ := udev_event_frame received w w1 r hr
        exact ⟨id, id⟩
    · simp [step, hl] at h
      subst h
      exact ⟨id, id⟩

theorem run_keeps_handles :
    ∀ (ops : List (Op D)) (w w' : World D), (∀ op ∈ ops, op.isTerminate = false) →
      run ops w = some w' →
      (w.udev.handle.isSome = true → w'.udev.handle.isSome = true) ∧
        (w.input.handle.isSome = true → w'.input.handle.isSome = true)
  | [], w, w', _, h => by
    simp [run] at h
    subst h
    exact ⟨id, id⟩
  | op :: ops, w, w', hops, h => by
    rcases hs : step op w with _ | w1
    · simp [run, hs] at h
    · simp [run, hs] at h
      have h1 := step_keeps_handles op w w1 (hops op (by simp)) hs
      have h2 := run_keeps_handles ops w1 w' (fun o ho => hops o (by simp [ho])) h
      exact ⟨fun hu => h2.1 (h1.1 hu), fun hi => h2.2 (h1.2 hi)⟩

end Life

/-! ## The lifecycle and the activation signal -/

section Runs
variable {D : Type}

/-- C4: after an init call that returned true, and whatever calls other than a
terminate follow (further init calls, activation signals, readable
descriptors), a call of the same init function returns true and leaves the
whole state as it is. -/
theorem init_again_is_noop (ops : List (Op D)) (env env' : Env) (w w1 w2 : World D)
    (hops : ∀ op ∈ ops, op.isTerminate = false) (hrun : run ops w1 = some w2) :
    (wlc_udev_init env w = some (true, w1) → wlc_udev_init env' w2 = some (true, w2)) ∧
      (wlc_input_init env w = some (true, w1) → wlc_input_init env' w2 = some (true, w2)) := by
  have hk := run_keeps_handles ops w1 w2 hops hrun
  constructor
  · intro h
    obtain ⟨-, -, -, hu⟩ := wlc_udev_init_frame env w w1 true h
    exact wlc_udev_init_again env' w2 (hk.1 (hu rfl))
  · intro h
    obtain ⟨hu, -, -, hus, hi, -⟩ := wlc_input_init_frame env w w1 true h
    exact wlc_input_init_again env' w2 (hk.1 (by rw [hu]; exact hus)) (hk.2 (hi rfl))

/-- C4 at a concrete input: both init calls succeed in turn from the fresh
state; an inactive signal and a second pair of init calls follow. -/
theorem init_again_is_noop_witness :
    (∀ op ∈ [Op.activation false, Op.udev_init env_ok, Op.input_init env_ok],
        Op.isTerminate (D := ℚ) op = false) ∧
      run [Op.activation false, Op.udev_init env_ok, Op.input_init env_ok] world_active =
        some world_suspended ∧
      wlc_input_init env_ok world_monitor = some (true, world_active) ∧
      wlc_input_init env_ok world_suspended = some (true, world_suspended) :=
  ⟨by simp [Op.isTerminate], rfl, rfl,
    (init_again_is_noop [Op.activation false, Op.udev_init env_ok, Op.input_init env_ok]
      env_ok env_ok world_monitor world_active world_suspended (by simp [Op.isTerminate]) rfl).2
      rfl⟩


theorem step_keeps_drained (op : Op D) (w w' : World D) (h : step op w = some w')
    (hinv : ∀ p, w.input.handle = some p → ∃ c, w.libinputs.lookup p = some c ∧ c.queue = []) :
    ∀ p, w'.input.handle = some p → ∃ c, w'.libinputs.lookup p = some c ∧ c.queue = [] := by
  cases op with
  | udev_init env =>
    rcases hr : wlc_udev_init env w with _ | ⟨b, w1⟩
    · simp [step, hr] at h
    · simp [step, hr] at h
      subst h
      obtain ⟨hi, hl, -, -⟩ := wlc_udev_init_frame env w w1 b hr
      rw [hi, hl]
      exact hinv
  | input_init env =>
    rcases hr : wlc_input_init env w with _ | ⟨b, w1⟩
    · simp [step, hr] at h
    · simp [step, hr] at h
      subst h
      obtain ⟨-, -, -, hus, -, hnew⟩ := wlc_input_init_frame env w w1 b hr
      rcases hi : w.input.handle with _ | i
      · exact hnew hi
      · rw [wlc_input_init_again env w hus (by simp [hi])] at hr
        simp at hr
        rw [← hr.2]
        exact hinv
  | input_terminate =>
    simp only [step] at h
    obtain ⟨hi, -, -⟩ := wlc_input_terminate_input w w' h
    intro p hp
    simp [hi] at hp
  | udev_terminate =>
    simp only [step] at h
    obtain ⟨hi, hl, -⟩ := wlc_udev_terminate_frame w w' h
    rw [hi, hl]
    exact hinv
  | activation active =>
    by_cases hl : w.activated_linked = true
    · simp [step, hl] at h
      obtain ⟨hi, -, -, hc⟩ := activated_frame active w w' h
      intro p hp
      rw [hi] at hp
      obtain ⟨c, hc1, hc2⟩ := hc p hp
      obtain ⟨c0, hc0, hq⟩ := hinv p hp
      obtain rfl : c0 = c := by simpa [hc0] using hc1
      exact ⟨_, hc2, hq⟩
    · simp [step, hl] at h
      subst h
      exact hinv
  | input_readable rc produced =>
    by_cases hl : registered .input_event w = true
    · rcases hr : input_event rc produced w with _ | ⟨r, w1⟩
      · simp [step, hl, hr] at h
      · simp [step, hl, hr] at h
        subst h
        obtain ⟨hi, -, hc⟩ := input_event_frame rc produced w w1 r hr
        intro p hp
        rw [hi] at hp
        obtain ⟨c, -, hc2⟩ := hc p hp
        exact ⟨_, hc2, rfl⟩
    · simp [step, hl] at h
      subst h
      exact hinv
  | udev_readable received =>
    by_cases hl : registered .udev_event w = true
    · rcases hr : udev_event received w with _ | ⟨r, w1⟩
      · simp [step, hl, hr] at h
      · simp [step, hl, hr] at h
        subst h
        obtain ⟨-, lines, rfl⟩ := udev_event_frame received w w1 r hr
        exact hinv
    · simp [step, hl] at h
      subst h
      exact hinv

theorem run_keeps_drained :
    ∀ (ops : List (Op D)) (w w' : World D), run ops w = some w' →
      (∀ p, w.input.handle = some p → ∃ c, w.libinputs.lookup p = some c ∧ c.queue = []) →
      ∀ p, w'.input.handle = some p → ∃ c, w'.libinputs.lookup p = some c ∧ c.queue = []
  | [], w, w', h, hinv => by
    simp [run] at h
    subst h
    exact hinv
  | op :: ops, w, w', h, hinv => by
    rcases hs : step op w with _ | w1
    · simp [run, hs] at h
    · simp [run, hs] at h
      exact run_keeps_drained ops w1 w' h (step_keeps_drained op w w1 hs hinv)

theorem step_keeps_suspended (op : Op D) (w w' : World D) (hop : op.keepsSuspension = true)
    (h : step op w = some w')
    (hs : ∃ p c, w.input.handle = some p ∧ w.libinputs.lookup p = some c ∧
      c.suspended = true ∧ c.queue = []) :
    ∃ p c, w'.input.handle = some p ∧ w'.libinputs.lookup p = some c ∧
      c.suspended = true ∧ c.queue = [] := by
  obtain ⟨p, c, hp, hc, hsus, hq⟩ := hs
  cases op with
  | udev_init env =>
    rcases hr : wlc_udev_init env w with _ | ⟨b, w1⟩
    · simp [step, hr] at h
    · simp [step, hr] at h
      subst h
      obtain ⟨hi, hl, -, -⟩ := wlc_udev_init_frame env w w1 b hr
      exact ⟨p, c, by rw [hi]; exact hp, by rw [hl]; exact hc, hsus, hq⟩
  | input_init env =>
    rcases hr : wlc_input_init env w with _ | ⟨b, w1⟩
    · simp [step, hr] at h
    · simp [step, hr] at h
      subst h
      obtain ⟨-, -, -, hus, -, -⟩ := wlc_input_init_frame env w w1 b hr
      rw [wlc_input_init_again env w hus (by simp [hp])] at hr
      simp at hr
      rw [← hr.2]
      exact ⟨p, c, hp, hc, hsus, hq⟩
  | input_terminate => simp [Op.keepsSuspension] at hop
  | udev_terminate =>
    simp only [step] at h
    obtain ⟨hi, hl, -⟩ := wlc_udev_terminate_frame w w' h
    exact ⟨p, c, by rw [hi]; exact hp, by rw [hl]; exact hc, hsus, hq⟩
  | activation active => simp [Op.keepsSuspension] at hop
  | input_readable rc produced =>
    by_cases hl : registered .input_event w = true
    · rcases hr : input_event rc produced w with _ | ⟨r, w1⟩
      · simp [step, hl, hr] at h
      · simp [step, hl, hr] at h
        subst h
        obtain ⟨hi, -, hcc⟩ := input_event_frame rc produced w w1 r hr
        obtain ⟨c1, hc1, hc2⟩ := hcc p hp
        obtain rfl : c = c1 := by simpa [hc] using hc1
        exact ⟨p, _, by rw [hi]; exact hp, hc2, hsus, rfl⟩
    · simp [step, hl] at h
      subst h
      exact ⟨p, c, hp, hc, hsus, hq⟩
  | udev_readable received =>
    by_cases hl : registered .udev_event w = true
    · rcases hr : udev_event received w with _ | ⟨r, w1⟩
      · simp [step, hl, hr] at h
      · simp [step, hl, hr] at h
        subst h
        obtain ⟨-, lines, rfl⟩ := udev_event_frame received w w1 r hr
        exact ⟨p, c, hp, hc, hsus, hq⟩
    · simp [step, hl] at h
      subst h
      exact ⟨p, c, hp, hc, hsus, hq⟩

theorem run_keeps_suspended :
    ∀ (ops : List (Op D)) (w w' : World D), (∀ op ∈ ops, op.keepsSuspension = true) →
      run ops w = some w' →
      (∃ p c, w.input.handle = some p ∧ w.libinputs.lookup p = some c ∧
        c.suspended = true ∧ c.queue = []) →
      ∃ p c, w'.input.handle = some p ∧ w'.libinputs.lookup p = some c ∧
        c.suspended = true ∧ c.queue = []
  | [], w, w', _, h, hs => by
    simp [run] at h
    subst h
    exact hs
  | op :: ops, w, w', hops, h, hs => by
    rcases hst : step op w with _ | w1
    · simp [run, hst] at h
    · simp [run, hst] at h
      exact run_keeps_suspended ops w1 w' (fun o ho => hops o (by simp [ho])) h
        (step_keeps_suspended op w w1 (hops op (by simp)) hst hs)

/-- C6 as stated fails: the monitor is initialized, the activation signal
carries `false`, then the input backend is initialized; the last signal
delivered was 'inactive', and `input_event` emits the motion the devices
produced. -/
theorem input_init_after_inactive_emits :
    ¬ (∀ (pre post : List (Op ℚ)) (w w' : World ℚ) (rc : Int)
        (produced : List (libinput_event ℚ)),
        (∀ op ∈ post, op.isActivation = false) →
        run (pre ++ Op.activation false :: post) (World.fresh ℚ) = some w →
        input_event rc produced w = some (0, w') → w'.signal_input = w.signal_input) := by
  intro H
  have h := H [Op.udev_init env_ok] [Op.input_init env_ok] world_active
    { world_active with
      libinputs := [(4, { ctx_active with dispatched := 1 })]
      signal_input := [⟨.WLC_INPUT_EVENT_MOTION, 100, .motion 1 2⟩]
      destroyed := [ev_motion] }
    0 [ev_motion] (by simp [Op.isActivation]) rfl rfl
  simp [world_active] at h

/-- C6, amended: in a state reached from the fresh one in which the input
backend is initialized and the listener is linked, let the activation signal
carry `false`; after any further steps other than an activation signal or
`wlc_input_terminate`, a run of `input_event` returns 0 and emits nothing,
whatever the dispatch returns and whatever the devices produced. -/
theorem suspended_backend_emits_nothing (pre post : List (Op D)) (w w2 : World D) (rc : Int)
    (produced : List (libinput_event D))
    (hpre : run pre (World.fresh D) = some w)
    (hinit : wlc_input_has_init w = true)
    (hlinked : w.activated_linked = true)
    (hpost : ∀ op ∈ post, op.keepsSuspension = true)
    (hrun : run (Op.activation false :: post) w = some w2) :
    ∃ w3, input_event rc produced w2 = some (0, w3) ∧ w3.signal_input = w2.signal_input := by
  have hinv := run_keeps_drained pre (World.fresh D) w hpre (by simp [World.fresh])
  rcases hi : w.input.handle with _ | p
  · simp [wlc_input_has_init, hi] at hinit
  obtain ⟨c, hc, hq⟩ := hinv p hi
  rcases hst : step (Op.activation false) w with _ | w1
  · simp [run, hst] at hrun
  simp [run, hst] at hrun
  simp [step, hlinked] at hst
  obtain ⟨hi1, -, -, hc1⟩ := activated_frame false w w1 hst
  obtain ⟨c', hc', hl1⟩ := hc1 p hi
  obtain rfl : c = c' := by simpa [hc] using hc'
  obtain ⟨q, c2, hq2, hc2, hsus, hqueue⟩ := run_keeps_suspended post w1 w2 hpost hrun
    ⟨p, _, by rw [hi1]; exact hi, hl1, rfl, hq⟩
  refine ⟨_, input_event_eq w2 q c2 rc produced hq2 hc2, ?_⟩
  simp [libinput_t.refill, hsus, hqueue]

/-- C6, amended, at a concrete input: both init calls, the inactive signal, a
readable backend descriptor and a repeated init call; then the devices produce
a motion and a button press. -/
theorem suspended_backend_emits_nothing_witness :
    run [Op.udev_init env_ok, Op.input_init env_ok] (World.fresh ℚ) = some world_active ∧
      wlc_input_has_init world_active = true ∧ world_active.activated_linked = true ∧
      run [Op.activation false, Op.input_readable 0 [ev_motion], Op.input_init env_ok]
        world_active =
        some { world_suspended with
          libinputs := [(4, { ctx_active with suspended := true, dispatched := 1 })] } ∧
      ∃ w3, input_event (-1) [ev_motion, ev_button]
          { world_suspended with
            libinputs := [(4, { ctx_active with suspended := true, dispatched := 1 })] } =
          some (0, w3) ∧
        w3.signal_input = [] :=
  ⟨rfl, rfl, rfl, rfl,
    suspended_backend_emits_nothing [Op.udev_init env_ok, Op.input_init env_ok]
      [Op.input_readable 0 [ev_motion], Op.input_init env_ok] world_active _ (-1)
      [ev_motion, ev_button] rfl rfl rfl (by simp [Op.keepsSuspension]) rfl⟩

end Runs

/-! ## Init and terminate at failing inputs -/

section Failures

/-- C3, the code at failing inputs: from the fresh state, `wlc_udev_init` with a
failing `udev_monitor_new_from_netlink` returns false and leaves `udev.handle`
set to the context it has just released, so the next `wlc_udev_init` returns
true at once; with a failing `udev_monitor_enable_receiving` it returns false
and the monitor stays held; and `wlc_input_init` with a failing seat assignment
returns false while `wlc_input_has_init` is true, the libinput context stays
held, and the next `wlc_input_init` returns true at once. -/
theorem failed_init_leaves_handles :
    (wlc_udev_init env_monitor_fail (World.fresh ℚ)).map
        (fun r => (r.1, r.2.udev, r.2.udev_live)) = some (false, ⟨some 1, none, none⟩, []) ∧
      ((wlc_udev_init env_monitor_fail (World.fresh ℚ)).bind
        (fun r => wlc_udev_init env_ok r.2)).map (fun r => (r.1, r.2.udev, r.2.udev_live)) =
        some (true, ⟨some 1, none, none⟩, []) ∧
      (wlc_udev_init env_receiving_fail (World.fresh ℚ)).map
        (fun r => (r.1, r.2.udev, r.2.udev_live, r.2.monitors.map Prod.fst)) =
        some (false, ⟨some 1, some 2, none⟩, [], [2]) ∧
      (wlc_input_init env_seat_fail world_monitor).map
        (fun r => (r.1, wlc_input_has_init r.2, r.2.input, r.2.libinputs.map Prod.fst)) =
        some (false, true, ⟨some 4, none⟩, [4]) ∧
      ((wlc_input_init env_seat_fail world_monitor).bind
        (fun r => wlc_input_init env_ok r.2)).map
        (fun r => (r.1, r.2.input, r.2.sources.map Prod.fst)) =
        some (true, ⟨some 4, none⟩, [3]) := by
  exact ⟨rfl, rfl, rfl, rfl, rfl⟩

/-- C5, the code at failing inputs: after both init calls succeeded in a fresh
process, the two terminate calls zero both structs, remove both event sources,
unlink the listener and release the udev and libinput contexts, but the udev
monitor is still held; and after a `wlc_udev_init` that failed at the monitor,
`wlc_udev_terminate` leaves defined behaviour. -/
theorem terminate_keeps_monitor :
    (run [Op.udev_init env_ok, Op.input_init env_ok, Op.input_terminate, Op.udev_terminate]
        (World.fresh ℚ)).map
        (fun w => (w.input, w.udev, w.sources, w.activated_linked, w.udev_live,
          w.libinputs.map Prod.fst, w.monitors)) =
        some (⟨none, none⟩, ⟨none, none, none⟩, [], false, [], [],
          [(2, ⟨1, ["drm", "input"], true⟩)]) ∧
      (run [Op.udev_init env_monitor_fail, Op.udev_terminate] (World.fresh ℚ)).isNone = true := by
  exact ⟨rfl, rfl⟩

/-- C7, the code at failing inputs: `udev_event` tests the record against the
constant id 0. The hotplug record of `card1`, a hotplug for controller id 1, is
not classified as hotplug; the hotplug record of `card0` is, whatever
controller is active. -/
theorem hotplug_test_uses_id_zero :
    is_hotplug 1 dev_card1_hotplug = true ∧
      (udev_event (some dev_card1_hotplug) world_monitor).map (fun r => r.2.log) =
        some [(.WLC_LOG_INFO, "udev: got device card1")] ∧
      is_hotplug 1 dev_card0_hotplug = false ∧
      (udev_event (some dev_card0_hotplug) world_monitor).map (fun r => r.2.log) =
        some [(.WLC_LOG_INFO, "udev: got device card0"), line_hotplug] := by
  exact ⟨rfl, rfl, rfl, rfl⟩

end Failures

/-! ## The device monitor -/

section Monitor
variable {D : Type}

theorem char_eq_of_toNat_eq (c d : Char) (h : c.toNat = d.toNat) : c = d := by
  apply Char.ext
  apply UInt32.eq_of_val_eq
  apply Fin.ext
  exact h

theorem strcmp_eq_zero :
    ∀ (a b : CStr), (∀ c ∈ a, c.toNat ≠ 0) → (∀ c ∈ b, c.toNat ≠ 0) → strcmp a b = 0 → a = b
  | [], [], _, _, _ => rfl
  | [], d :: _, _, hb, h => by
    have := hb d (by simp)
    simp [strcmp] at h
    omega
  | c :: _, [], ha, _, h => by
    have := ha c (by simp)
    simp [strcmp] at h
    omega
  | c :: cs, d :: ds, ha, hb, h => by
    by_cases hcd : c = d
    · subst hcd
      simp only [strcmp, if_true] at h
      rw [strcmp_eq_zero cs ds (fun x hx => ha x (by simp [hx])) (fun x hx => hb x (by simp [hx])) h]
    · simp only [strcmp, hcd, if_false] at h
      exact absurd (char_eq_of_toNat_eq c d (by omega)) hcd

theorem udev_event_action_eq (device : udev_device) (w : World D) :
    ∃ lines, udev_event_action device w = { w with log := w.log ++ lines } ∧
      (lines = [] ∨
        (lines = [line_added] ∧ ∃ a, device.action = some a ∧ strcmp a c_add = 0) ∨
        (lines = [line_removed] ∧ ∃ a, device.action = some a ∧ strcmp a c_remove = 0)) := by
  rcases ha : device.action with _ | a
  · exact ⟨[], by simp [udev_event_action, ha], Or.inl rfl⟩
  · by_cases hs : strncmp ['e', 'v', 'e', 'n', 't'] device.sysname 6 = 0
    · exact ⟨[], by simp [udev_event_action, ha, hs], Or.inl rfl⟩
    · by_cases hadd : strcmp a ['a', 'd', 'd'] = 0
      · exact ⟨[line_added], by simp [udev_event_action, ha, hs, hadd, wlc_log, line_added],
          Or.inr (Or.inl ⟨rfl, a, rfl, hadd⟩)⟩
      · by_cases hrem : strcmp a ['r', 'e', 'm', 'o', 'v', 'e'] = 0
        · exact ⟨[line_removed],
            by simp [udev_event_action, ha, hs, hadd, hrem, wlc_log, line_removed],
            Or.inr (Or.inr ⟨rfl, a, rfl, hrem⟩)⟩
        · exact ⟨[], by simp [udev_event_action, ha, hs, hadd, hrem], Or.inl rfl⟩

/-- C8, the code at a failing input: the sysname test of `udev_event`,
`!strncmp("event", sysname, sizeof("event")) != 0`, lets the name `card1`
through just as it lets `event5` through. So the record of the display
controller `card1` being added, which is not a hotplug record and belongs to
subsystem drm, is reported as 'device added', next to the removal of the input
node `event5`, which is reported as 'device removed'. -/
theorem sysname_test_lets_drm_through :
    strncmp ['e', 'v', 'e', 'n', 't'] dev_card1_add.sysname 6 ≠ 0 ∧
      strncmp ['e', 'v', 'e', 'n', 't'] dev_event5_remove.sysname 6 ≠ 0 ∧
      is_hotplug 0 dev_card1_add = false ∧
      dev_card1_add.subsystem = some c_drm ∧
      (udev_event (some dev_card1_add) world_monitor).map (fun r => (r.1, r.2.log)) =
        some (0, [(.WLC_LOG_INFO, "udev: got device card1"), line_added]) ∧
      (udev_event (some dev_event5_remove) world_monitor).map (fun r => (r.1, r.2.log)) =
        some (0, [(.WLC_LOG_INFO, "udev: got device event5"), line_removed]) := by
  refine ⟨by decide, by decide, rfl, rfl, rfl, rfl⟩

/-- What `udev_event` does with a received record that is not classified as
hotplug: it returns 0 and writes, after the line naming the device, at most one
report, 'device added' only for a record whose action is "add" and 'device
removed' only for a record whose action is "remove"; it never reads the
subsystem of the record, and nothing but the log changes. -/
theorem udev_event_unclassified (w : World D) (m : Ptr) (ms : udev_monitor_t)
    (device : udev_device) (hm : w.udev.monitor = some m) (hl : w.monitors.lookup m = some ms)
    (hnul : ∀ a, device.action = some a → ∀ c ∈ a, c.toNat ≠ 0)
    (hnot : is_hotplug 0 device = false) :
    ∃ lines,
      udev_event (some device) w =
        some (0, { w with log := w.log ++
          (.WLC_LOG_INFO, "udev: got device " ++ String.mk device.sysname) :: lines }) ∧
      (lines = [] ∨ (lines = [line_added] ∧ device.action = some c_add) ∨
        (lines = [line_removed] ∧ device.action = some c_remove)) ∧
      (device.action ≠ some c_add → device.action ≠ some c_remove → lines = []) ∧
      ∀ subsystem, udev_event (some { device with subsystem := subsystem }) w =
        udev_event (some device) w := by
  obtain ⟨lines, heq, hlines⟩ := udev_event_action_eq device
    (wlc_log .WLC_LOG_INFO ("udev: got device " ++ String.mk device.sysname) w)
  have hcls : lines = [] ∨ (lines = [line_added] ∧ device.action = some c_add) ∨
      (lines = [line_removed] ∧ device.action = some c_remove) := by
    rcases hlines with h | ⟨h, a, ha, hs⟩ | ⟨h, a, ha, hs⟩
    · exact Or.inl h
    · refine Or.inr (Or.inl ⟨h, ?_⟩)
      rw [ha, strcmp_eq_zero a c_add (hnul a ha) (by decide) hs]
    · refine Or.inr (Or.inr ⟨h, ?_⟩)
      rw [ha, strcmp_eq_zero a c_remove (hnul a ha) (by decide) hs]
  refine ⟨lines, ?_, hcls, ?_, ?_⟩
  · simp only [udev_event, udev_monitor_receive_device, hm, hl, hnot, udev_device_unref,
      udev_device_get_sysname, heq]
    simp [wlc_log, List.append_assoc]
  · intro h1 h2
    rcases hcls with h | ⟨-, h⟩ | ⟨-, h⟩
    · exact h
    · exact absurd h h1
    · exact absurd h h2
  · intro subsystem
    simp only [udev_event, udev_monitor_receive_device, hm, hl, is_hotplug, udev_event_action,
      udev_device_unref, udev_device_get_sysname, udev_device_get_sysnum, udev_device_get_action,
      udev_device_get_property_value]

end Monitor

end Wlc
